import Mathlib

/-!
Shallow embedding of `reader.go` from the gobmp repository (a BMP image
decoder), together with theorems checking the natural-language
specification against it.

The byte stream is a `List Nat` (each element a byte value); Go's
`io.ReadFull` becomes `readFull`, which either consumes exactly `n` bytes
or fails with `BmpErr.ioErr`.  The mutable `decoder` struct becomes the
`Decoder` record threaded through the parsing functions, and the two Go
error types `FormatError` / `UnsupportedError` become the corresponding
`BmpErr` constructors.  A Go `nil`-pointer dereference (unreachable in the
decoder) is modelled by `BmpErr.panicErr`.
-/

namespace GoBmp

/-- Compression codes, from the constant block of reader.go. -/
def bI_RGB : Nat := 0

def bI_RLE8 : Nat := 1

def bI_RLE4 : Nat := 2

def bI_BITFIELDS : Nat := 3

/-- Outcomes other than success: `format` models `FormatError`,
`unsupported` models `UnsupportedError`, `ioErr` models an error returned
by `io.ReadFull` (EOF / unexpected EOF), and `panicErr` models a Go
runtime panic (nil image dereference, unreachable on the paths `Decode`
exercises). -/
inductive BmpErr where
  | format (msg : String)
  | unsupported (msg : String)
  | ioErr
  | panicErr (msg : String)
  deriving Repr, DecidableEq

deriving instance DecidableEq for Except

/-- Model of `io.ReadFull buf` for a buffer of length `n`: succeed and
consume exactly `n` bytes, or fail without a usable result. -/
def readFull (n : Nat) (s : List Nat) : Except BmpErr (List Nat × List Nat) :=
  if n ≤ s.length then Except.ok (s.take n, s.drop n) else Except.error BmpErr.ioErr

/-- getWORD from reader.go: little-endian 16-bit read. -/
def getWORD (b : List Nat) : Nat :=
  b.getD 0 0 ||| (b.getD 1 0 <<< 8)

/-- getDWORD from reader.go: little-endian 32-bit read. -/
def getDWORD (b : List Nat) : Nat :=
  b.getD 0 0 ||| (b.getD 1 0 <<< 8) ||| (b.getD 2 0 <<< 16) ||| (b.getD 3 0 <<< 24)

/-- Go's `int(int32(x))` applied to a `uint32` value. -/
def toInt32 (n : Nat) : Int :=
  if n % 2 ^ 32 < 2 ^ 31 then ((n % 2 ^ 32 : Nat) : Int) else ((n % 2 ^ 32 : Nat) : Int) - 2 ^ 32

/-- Entry of Go's `color.RGBA`. -/
structure RGBA where
  r : Nat
  g : Nat
  b : Nat
  a : Nat
  deriving Repr, DecidableEq

/-- Model of `image.Paletted`: the rectangle `Rect(0,0,width,height)`, the
stride, the pixel (palette index) bytes, and the palette. -/
structure Paletted where
  width : Int
  height : Int
  stride : Nat
  pix : List Nat
  palette : List RGBA
  deriving Repr, DecidableEq

/-- Model of `image.NRGBA`: rectangle, stride and interleaved RGBA bytes. -/
structure NRGBA where
  width : Int
  height : Int
  stride : Nat
  pix : List Nat
  deriving Repr, DecidableEq

/-- The image returned by `Decode`: exactly one of the two Go image
pointers is non-nil, modelled as a sum. -/
inductive Img where
  | paletted (p : Paletted)
  | nrgba (p : NRGBA)
  deriving Repr, DecidableEq

/-- Model of `image.NewPaletted(image.Rect(0,0,w,h), pal)`:
stride `w`, `w*h` zero pixel bytes. -/
def newPaletted (w h : Int) (pal : List RGBA) : Paletted :=
  { width := w, height := h, stride := w.toNat,
    pix := List.replicate (w.toNat * h.toNat) 0, palette := pal }

/-- Model of `image.NewNRGBA(image.Rect(0,0,w,h))`:
stride `4*w`, `4*w*h` zero bytes. -/
def newNRGBA (w h : Int) : NRGBA :=
  { width := w, height := h, stride := 4 * w.toNat,
    pix := List.replicate (4 * w.toNat * h.toNat) 0 }

/-- The `decoder` struct of reader.go; Go zero values as defaults. -/
structure Decoder where
  bfOffBits : Nat := 0
  headerSize : Nat := 0
  width : Int := 0
  height : Int := 0
  bitCount : Nat := 0
  biCompression : Nat := 0
  srcPalNumEntries : Nat := 0
  srcPalBytesPerEntry : Nat := 0
  srcPalSizeInBytes : Nat := 0
  dstPalNumEntries : Nat := 0
  dstHasPalette : Bool := false
  dstPalette : List RGBA := []
  hasBitfieldsSegment : Bool := false
  bitFieldsSize : Nat := 0
  isTopDown : Bool := false
  deriving Repr, DecidableEq

/-- Pixel value extracted by `decodeRow_1` at column `i`:
one bit, most significant bit first. -/
def pixVal1 (buf : List Nat) (i : Nat) : Nat :=
  if buf.getD (i / 8) 0 &&& (1 <<< (7 - i % 8)) = 0 then 0 else 1

/-- Pixel value extracted by `decodeRow_4` at column `i`:
high nibble first. -/
def pixVal4 (buf : List Nat) (i : Nat) : Nat :=
  if i &&& 1 = 0 then buf.getD (i / 2) 0 >>> 4 else buf.getD (i / 2) 0 &&& 0x0f

/-- Pixel value extracted by `decodeRow_8` at column `i`: one byte. -/
def pixVal8 (buf : List Nat) (i : Nat) : Nat :=
  buf.getD i 0

/-- The `for i` loop shared by `decodeRow_1/4/8`, iterating over the given
column indices: check the palette index against `dstPalNumEntries`, then
store it at `j*Stride + i`. -/
def decodeRowPalLoop (pv : List Nat → Nat → Nat) (d : Decoder) (buf : List Nat)
    (j : Nat) (p : Paletted) : List Nat → Except BmpErr Paletted
  | [] => Except.ok p
  | i :: rest =>
    if d.dstPalNumEntries ≤ pv buf i then
      Except.error (BmpErr.format "palette index out of range")
    else
      decodeRowPalLoop pv d buf j
        { p with pix := p.pix.set (j * p.stride + i) (pv buf i) } rest

/-- Common shape of `decodeRow_1`, `decodeRow_4` and `decodeRow_8`, which
differ only in how a pixel value is extracted from the row buffer.  A
non-paletted image models the Go nil-pointer panic. -/
def decodeRowPal (pv : List Nat → Nat → Nat) (d : Decoder) (buf : List Nat)
    (img : Img) (j : Nat) : Except BmpErr Img :=
  match img with
  | Img.paletted p =>
    (decodeRowPalLoop pv d buf j p (List.range d.width.toNat)).map Img.paletted
  | Img.nrgba _ => Except.error (BmpErr.panicErr "nil paletted image")

/-- decodeRow_1 from reader.go. -/
def decodeRow_1 : Decoder → List Nat → Img → Nat → Except BmpErr Img :=
  decodeRowPal pixVal1

/-- decodeRow_4 from reader.go. -/
def decodeRow_4 : Decoder → List Nat → Img → Nat → Except BmpErr Img :=
  decodeRowPal pixVal4

/-- decodeRow_8 from reader.go. -/
def decodeRow_8 : Decoder → List Nat → Img → Nat → Except BmpErr Img :=
  decodeRowPal pixVal8

/-- The `for i` loop of `decodeRow_24`: bytes (B,G,R) at columns `i`
become (R,G,B,255) at `j*Stride + i*4`. -/
def decodeRow24Loop (buf : List Nat) (j : Nat) (p : NRGBA) :
    List Nat → NRGBA
  | [] => p
  | i :: rest =>
    let b := buf.getD (i * 3 + 0) 0
    let g := buf.getD (i * 3 + 1) 0
    let r := buf.getD (i * 3 + 2) 0
    decodeRow24Loop buf j
      { p with pix := ((((p.pix.set (j * p.stride + i * 4 + 0) r).set
          (j * p.stride + i * 4 + 1) g).set
          (j * p.stride + i * 4 + 2) b).set
          (j * p.stride + i * 4 + 3) 255) } rest

/-- decodeRow_24 from reader.go. -/
def decodeRow_24 (d : Decoder) (buf : List Nat) (img : Img) (j : Nat) :
    Except BmpErr Img :=
  match img with
  | Img.nrgba p =>
    Except.ok (Img.nrgba (decodeRow24Loop buf j p (List.range d.width.toNat)))
  | Img.paletted _ => Except.error (BmpErr.panicErr "nil NRGBA image")

/-- Row stride computed in `readBits`:
`((d.width*d.bitCount + 31) / 32) * 4`. -/
def srcRowStride (d : Decoder) : Nat :=
  ((d.width.toNat * d.bitCount + 31) / 32) * 4

/-- The `switch d.bitCount` of `readBits` choosing `decodeRowFunc`. -/
def rowFuncFor (bc : Nat) :
    Option (Decoder → List Nat → Img → Nat → Except BmpErr Img) :=
  match bc with
  | 1 => some decodeRow_1
  | 4 => some decodeRow_4
  | 8 => some decodeRow_8
  | 24 => some decodeRow_24
  | _ => none

/-- The `for srcRow` loop of `readBits`, iterating over the source row
indices: read one padded row, decode it into destination row `dstRow`. -/
def readBitsLoop (d : Decoder)
    (f : Decoder → List Nat → Img → Nat → Except BmpErr Img)
    (img : Img) (s : List Nat) : List Nat → Except BmpErr (Img × List Nat)
  | [] => Except.ok (img, s)
  | srcRow :: rest =>
    let dstRow := if d.isTopDown then srcRow else d.height.toNat - srcRow - 1
    match readFull (srcRowStride d) s with
    | Except.error e => Except.error e
    | Except.ok (buf, s2) =>
      match f d buf img dstRow with
      | Except.error e => Except.error e
      | Except.ok img2 => readBitsLoop d f img2 s2 rest

/-- readBits from reader.go. -/
def readBits (d : Decoder) (img : Img) (s : List Nat) :
    Except BmpErr (Img × List Nat) :=
  match rowFuncFor d.bitCount with
  | none => Except.ok (img, s)
  | some f => readBitsLoop d f img s (List.range d.height.toNat)

/-- The `for n > 0` loop of `skipBytes`, discarding up to 1024 bytes per
iteration. -/
def skipBytesLoop : Nat → List Nat → Except BmpErr (List Nat)
  | 0, s => Except.ok s
  | n + 1, s =>
    match readFull (min 1024 (n + 1)) s with
    | Except.error e => Except.error e
    | Except.ok (_, s2) => skipBytesLoop (n + 1 - min 1024 (n + 1)) s2
  termination_by n _ => n
  decreasing_by omega

/-- skipBytes from reader.go (its `n` parameter is a Go `int`; the loop
body runs only while `n > 0`). -/
def skipBytes (n : Int) (s : List Nat) : Except BmpErr (List Nat) :=
  skipBytesLoop n.toNat s

/-- readGap from reader.go. -/
def readGap (d : Decoder) (s : List Nat) : Except BmpErr (List Nat) :=
  let currentOffset : Int :=
    14 + (d.headerSize : Int) + (d.bitFieldsSize : Int) + (d.srcPalSizeInBytes : Int)
  if currentOffset = (d.bfOffBits : Int) then Except.ok s
  else if (d.bfOffBits : Int) < currentOffset then
    Except.error (BmpErr.format "bad bfOffBits field")
  else skipBytes ((d.bfOffBits : Int) - currentOffset) s

/-- decodeInfoHeader40 from reader.go (the 40-byte BITMAPINFOHEADER). -/
def decodeInfoHeader40 (d : Decoder) (h : List Nat) (configOnly : Bool) :
    Except BmpErr Decoder :=
  let w := toInt32 (getDWORD (h.drop 4))
  if w < 1 then Except.error (BmpErr.format ("bad width " ++ toString w)) else
  let h0 := toInt32 (getDWORD (h.drop 8))
  let td := if h0 < 0 then true else d.isTopDown
  let ht := if h0 < 0 then -h0 else h0
  if ht < 1 then Except.error (BmpErr.format ("bad height " ++ toString ht)) else
  let bc := getWORD (h.drop 14)
  let d1 : Decoder := { d with width := w, height := ht, isTopDown := td, bitCount := bc }
  if configOnly then Except.ok d1 else
  let comp := getDWORD (h.drop 16)
  if comp ≠ bI_RGB ∧ comp ≠ bI_RLE4 ∧ comp ≠ bI_RLE8 ∧ comp ≠ bI_BITFIELDS then
    Except.error (BmpErr.unsupported ("compression or image type " ++ toString comp))
  else
  let d2 : Decoder := { d1 with biCompression := comp }
  let d3 : Decoder :=
    if comp = bI_BITFIELDS ∧ d.headerSize = 40 then
      { d2 with hasBitfieldsSegment := true, bitFieldsSize := 12 }
    else d2
  let biClrUsed := getDWORD (h.drop 32)
  if 10000 < biClrUsed then
    Except.error (BmpErr.format ("bad palette size " ++ toString biClrUsed))
  else
  let d4 : Decoder := { d3 with srcPalBytesPerEntry := 4 }
  let d5 : Decoder :=
    if 1 ≤ bc ∧ bc ≤ 8 then
      if biClrUsed = 0 then { d4 with srcPalNumEntries := 2 ^ bc }
      else { d4 with srcPalNumEntries := biClrUsed }
    else { d4 with srcPalNumEntries := biClrUsed }
  Except.ok d5

/-- readInfoHeader from reader.go: reads the remaining `headerSize - 4`
header bytes into a buffer whose first four bytes stay zero, runs the
given header decoder, then sets `dstHasPalette` for bit depths 1..8. -/
def readInfoHeader (d : Decoder)
    (decodeFn : Decoder → List Nat → Bool → Except BmpErr Decoder)
    (configOnly : Bool) (s : List Nat) : Except BmpErr (Decoder × List Nat) :=
  match readFull (d.headerSize - 4) s with
  | Except.error e => Except.error e
  | Except.ok (rest, s2) =>
    match decodeFn d (List.replicate 4 0 ++ rest) configOnly with
    | Except.error e => Except.error e
    | Except.ok d2 =>
      let d3 : Decoder :=
        if 1 ≤ d2.bitCount ∧ d2.bitCount ≤ 8 then { d2 with dstHasPalette := true } else d2
      Except.ok (d3, s2)

/-- decodeFileHeader from reader.go: checks the `BM` signature and reads
`bfOffBits`. -/
def decodeFileHeader (d : Decoder) (b : List Nat) : Except BmpErr Decoder :=
  if b.getD 0 0 ≠ 0x42 ∨ b.getD 1 0 ≠ 0x4d then
    Except.error (BmpErr.format "not a BMP file")
  else Except.ok { d with bfOffBits := getDWORD (b.drop 10) }

/-- readHeaders from reader.go: reads the 14-byte file header plus the
first 4 info-header bytes in one 18-byte read, then dispatches on the
header size (only 40 accepted). -/
def readHeaders (d : Decoder) (configOnly : Bool) (s : List Nat) :
    Except BmpErr (Decoder × List Nat) :=
  match readFull 18 s with
  | Except.error e => Except.error e
  | Except.ok (fh, s2) =>
    match decodeFileHeader d (fh.take 14) with
    | Except.error e => Except.error e
    | Except.ok d2 =>
      let d3 : Decoder := { d2 with headerSize := getDWORD (fh.drop 14) }
      if d3.headerSize = 40 then
        match readInfoHeader d3 decodeInfoHeader40 configOnly s2 with
        | Except.error e => Except.error e
        | Except.ok (d4, s3) =>
          Except.ok
            ({ d4 with srcPalSizeInBytes := d4.srcPalNumEntries * d4.srcPalBytesPerEntry }, s3)
      else
        Except.error
          (BmpErr.unsupported ("BMP version (header size " ++ toString d3.headerSize ++ ")"))

/-- readPalette from reader.go: consumes the raw palette bytes; when a
destination palette is used, builds at most 256 entries reordering
(B,G,R,reserved) to (R,G,B,255). -/
def readPalette (d : Decoder) (s : List Nat) : Except BmpErr (Decoder × List Nat) :=
  match readFull d.srcPalSizeInBytes s with
  | Except.error e => Except.error e
  | Except.ok (buf, s2) =>
    if ¬ d.dstHasPalette then Except.ok ({ d with dstPalNumEntries := 0 }, s2)
    else
      let n : Nat :=
        if 256 < d.srcPalNumEntries then 256 else d.srcPalNumEntries
      let pal : List RGBA :=
        (List.range n).map (fun i =>
          RGBA.mk (buf.getD (i * d.srcPalBytesPerEntry + 2) 0)
                  (buf.getD (i * d.srcPalBytesPerEntry + 1) 0)
                  (buf.getD (i * d.srcPalBytesPerEntry + 0) 0) 255)
      Except.ok ({ d with dstPalNumEntries := n, dstPalette := pal }, s2)

/-- Result of `image.Config` restricted to what the decoder sets: the
dimensions, and whether the color model is `color.Palette(nil)` (indexed)
rather than `color.NRGBAModel`. -/
structure Config where
  width : Int
  height : Int
  colorModelIndexed : Bool
  deriving Repr, DecidableEq

/-- DecodeConfig from reader.go. -/
def DecodeConfig (s : List Nat) : Except BmpErr Config :=
  match readHeaders {} true s with
  | Except.error e => Except.error e
  | Except.ok (d, _) =>
    Except.ok { width := d.width, height := d.height, colorModelIndexed := d.dstHasPalette }

/-- Decode from reader.go. -/
def Decode (s : List Nat) : Except BmpErr Img :=
  match readHeaders {} false s with
  | Except.error e => Except.error e
  | Except.ok (d, s1) =>
    if d.biCompression ≠ bI_RGB then
      Except.error (BmpErr.unsupported ("compression or image type " ++ toString d.biCompression))
    else if ¬ (d.bitCount = 1 ∨ d.bitCount = 4 ∨ d.bitCount = 8 ∨ d.bitCount = 24) then
      Except.error (BmpErr.unsupported ("bit count " ++ toString d.bitCount))
    else
      match (if 0 < d.srcPalNumEntries then readPalette d s1 else Except.ok (d, s1)) with
      | Except.error e => Except.error e
      | Except.ok (d2, s2) =>
        let img : Img :=
          if d2.dstHasPalette then Img.paletted (newPaletted d2.width d2.height d2.dstPalette)
          else Img.nrgba (newNRGBA d2.width d2.height)
        match readGap d2 s2 with
        | Except.error e => Except.error e
        | Except.ok s3 =>
          match readBits d2 img s3 with
          | Except.error e => Except.error e
          | Except.ok (img2, _) => Except.ok img2

/-- One destination row of a pixel buffer: the `stride` bytes starting at
`row * stride`. -/
def rowSeg (pix : List Nat) (stride row : Nat) : List Nat :=
  (pix.drop (row * stride)).take stride

/-- The source palette entry count `decodeInfoHeader40` derives from the
bit count and the `biClrUsed` field. -/
def palCount (bc cu : Nat) : Nat :=
  if 1 ≤ bc ∧ bc ≤ 8 then (if cu = 0 then 2 ^ bc else cu) else cu

/-- The first `n` destination palette entries `readPalette` builds from
raw 4-byte (B,G,R,reserved) source entries. -/
def palEntries (buf : List Nat) (n : Nat) : List RGBA :=
  (List.range n).map (fun i =>
    RGBA.mk (buf.getD (i * 4 + 2) 0) (buf.getD (i * 4 + 1) 0)
      (buf.getD (i * 4 + 0) 0) 255)

/-- A BMP byte stream with a 40-byte info header assembled from its
fields: the `BM` signature, 8 ignored file-header bytes, `bfOffBits`,
the header size 40, width, height, planes, bit count, compression,
12 middle bytes (image size and resolution), `biClrUsed`,
`biClrImportant`, then the palette, gap and pixel bytes. -/
def mkBMP (resv off wB hB planesB bcB compB midB cuB ciB pal gap px : List Nat) :
    List Nat :=
  [0x42, 0x4d] ++ resv ++ off ++ [40, 0, 0, 0] ++ wB ++ hB ++ planesB ++ bcB ++
    compB ++ midB ++ cuB ++ ciB ++ pal ++ gap ++ px

/-- The decoder state `readHeaders` produces on a `mkBMP` stream with
compression 0, in terms of the decoded width `w`, normalized height
`ht`, orientation `td`, bit count `bc` and colors-used count `cu`. -/
def hdrDecoder (off : List Nat) (w ht : Int) (td : Bool) (bc cu : Nat) : Decoder :=
  { bfOffBits := getDWORD off, headerSize := 40, width := w, height := ht,
    bitCount := bc, biCompression := 0, srcPalNumEntries := palCount bc cu,
    srcPalBytesPerEntry := 4, srcPalSizeInBytes := palCount bc cu * 4,
    dstPalNumEntries := 0, dstHasPalette := if 1 ≤ bc ∧ bc ≤ 8 then true else false,
    dstPalette := [], hasBitfieldsSegment := false, bitFieldsSize := 0,
    isTopDown := td }

/-- The update `decodeInfoHeader40` applies to the decoder on a header
with compression 0, in terms of the decoded field values. -/
def dih40Out (d : Decoder) (w ht : Int) (td : Bool) (bc spne : Nat) : Decoder :=
  { d with
    width := w,
    height := ht,
    isTopDown := td,
    bitCount := bc,
    biCompression := 0,
    srcPalBytesPerEntry := 4,
    srcPalNumEntries := spne }

/-- The destination palette entry count after `readPalette`: the source
count clamped to 256 for indexed images, 0 otherwise. -/
def dstCount (bc cu : Nat) : Nat :=
  if 1 ≤ bc ∧ bc ≤ 8 then (if 256 < palCount bc cu then 256 else palCount bc cu)
  else 0

/-- The decoder state after the palette stage of `Decode` on a `mkBMP`
stream with compression 0. -/
def postPalDecoder (off : List Nat) (w ht : Int) (td : Bool) (bc cu : Nat)
    (pal : List Nat) : Decoder :=
  { bfOffBits := getDWORD off, headerSize := 40, width := w, height := ht,
    bitCount := bc, biCompression := 0, srcPalNumEntries := palCount bc cu,
    srcPalBytesPerEntry := 4, srcPalSizeInBytes := palCount bc cu * 4,
    dstPalNumEntries := dstCount bc cu,
    dstHasPalette := if 1 ≤ bc ∧ bc ≤ 8 then true else false,
    dstPalette := if 1 ≤ bc ∧ bc ≤ 8 then palEntries pal (dstCount bc cu) else [],
    hasBitfieldsSegment := false, bitFieldsSize := 0, isTopDown := td }

/-- The target image `Decode` allocates on a `mkBMP` stream with
compression 0: paletted for bit depths 1..8, NRGBA otherwise. -/
def mkImg (w ht : Int) (bc cu : Nat) (pal : List Nat) : Img :=
  if 1 ≤ bc ∧ bc ≤ 8 then
    Img.paletted (newPaletted w ht (palEntries pal (dstCount bc cu)))
  else Img.nrgba (newNRGBA w ht)

/-- Example decoder state after the headers of a 54+8-byte prelude with
a pixel-data offset of 62 (no gap). -/
def gapDecoderEq : Decoder :=
  { bfOffBits := 62, headerSize := 40, bitFieldsSize := 0, srcPalSizeInBytes := 8 }

/-- Same as `gapDecoderEq` but the declared offset points inside the
headers. -/
def gapDecoderLt : Decoder :=
  { bfOffBits := 61, headerSize := 40, bitFieldsSize := 0, srcPalSizeInBytes := 8 }

/-- Same as `gapDecoderEq` but with a 2-byte gap before the pixel data. -/
def gapDecoderGt : Decoder :=
  { bfOffBits := 64, headerSize := 40, bitFieldsSize := 0, srcPalSizeInBytes := 8 }

/-- Width of either image kind. -/
def Img.widthOf : Img → Int
  | Img.paletted p => p.width
  | Img.nrgba p => p.width

/-- Height of either image kind. -/
def Img.heightOf : Img → Int
  | Img.paletted p => p.height
  | Img.nrgba p => p.height

/-- Whether the image is the paletted (indexed) kind. -/
def Img.isIndexed : Img → Bool
  | Img.paletted _ => true
  | Img.nrgba _ => false

/-- Palette of the image (empty for the direct-color kind). -/
def Img.paletteOf : Img → List RGBA
  | Img.paletted p => p.palette
  | Img.nrgba _ => []

/-- Stride of either image kind. -/
def Img.strideOf : Img → Nat
  | Img.paletted p => p.stride
  | Img.nrgba p => p.stride

/-- Pixel buffer of either image kind. -/
def Img.pixOf : Img → List Nat
  | Img.paletted p => p.pix
  | Img.nrgba p => p.pix

/-- Replace the pixel buffer, keeping everything else. -/
def Img.withPix : Img → List Nat → Img
  | Img.paletted p, px => Img.paletted { p with pix := px }
  | Img.nrgba p, px => Img.nrgba { p with pix := px }

/-- Header bytes of a 1-bit image, width 1, height 1, compression 0,
colors-used 0 (the first four bytes model the part of the buffer
`readInfoHeader` leaves zeroed). -/
def c7h : List Nat :=
  List.replicate 4 0 ++ [1, 0, 0, 0] ++ [1, 0, 0, 0] ++ [0, 0] ++ [1, 0] ++
    [0, 0, 0, 0] ++ List.replicate 12 0 ++ [0, 0, 0, 0] ++ [0, 0, 0, 0]

/-- Concrete 54-byte file: 1x1, 8-bit, compression field 2, colors-used 2
(no palette or pixel bytes are present, neither entry point needs them to
reach its verdict). -/
def c6file : List Nat :=
  [0x42, 0x4d] ++ List.replicate 8 0 ++ [54, 0, 0, 0] ++ [40, 0, 0, 0] ++
  [1, 0, 0, 0] ++ [1, 0, 0, 0] ++ [1, 0] ++ [8, 0] ++ [2, 0, 0, 0] ++
  List.replicate 12 0 ++ [2, 0, 0, 0] ++ [0, 0, 0, 0]

/-- Concrete decodable file: 2x2, 8-bit, two palette entries, no gap. -/
def goodFile : List Nat :=
  [0x42, 0x4d] ++ List.replicate 8 0 ++ [62, 0, 0, 0] ++ [40, 0, 0, 0] ++
  [2, 0, 0, 0] ++ [2, 0, 0, 0] ++ [1, 0] ++ [8, 0] ++ [0, 0, 0, 0] ++
  List.replicate 12 0 ++ [2, 0, 0, 0] ++ [0, 0, 0, 0] ++
  [10, 20, 30, 99, 40, 50, 60, 99] ++ [1, 0, 0, 0, 0, 1, 0, 0]

/-- The image `Decode` produces on `goodFile`. -/
def goodImgP : Paletted :=
  { width := 2, height := 2, stride := 2, pix := [0, 1, 1, 0],
    palette := [RGBA.mk 30 20 10 255, RGBA.mk 60 50 40 255] }

/-- A 40-byte header whose width field is zero. -/
def c2badw : List Nat :=
  List.replicate 4 0 ++ [0, 0, 0, 0] ++ [1, 0, 0, 0] ++ List.replicate 28 0

/-- Decoder state of a paletted image with a single 4-byte palette
entry. -/
def palD : Decoder :=
  { dstHasPalette := true, srcPalNumEntries := 1, srcPalBytesPerEntry := 4,
    srcPalSizeInBytes := 4 }

/-- Decoder state for a single-pixel row with a one-entry destination
palette. -/
def rowD : Decoder :=
  { width := 1, dstPalNumEntries := 1 }

/-- Writing consecutive values by repeated `List.set`. -/
def setSeq (l : List Nat) (m : Nat) : List Nat → List Nat
  | [] => l
  | v :: vs => setSeq (l.set m v) (m + 1) vs

/-- Values a full source row contributes to the pixel buffer: palette
indices for bit depths 1/4/8, interleaved (R,G,B,255) bytes for 24. -/
def rowPayload (d : Decoder) (buf : List Nat) : List Nat :=
  match d.bitCount with
  | 1 => (List.range d.width.toNat).map (pixVal1 buf)
  | 4 => (List.range d.width.toNat).map (pixVal4 buf)
  | 8 => (List.range d.width.toNat).map (pixVal8 buf)
  | 24 => (List.range d.width.toNat).flatMap (fun i => [buf.getD (i * 3 + 2) 0,
      buf.getD (i * 3 + 1) 0, buf.getD (i * 3 + 0) 0, 255])
  | _ => []

/-- Whether a full source row passes the palette-index range checks. -/
def rowOK (d : Decoder) (buf : List Nat) : Bool :=
  match d.bitCount with
  | 1 => (List.range d.width.toNat).all (fun i => pixVal1 buf i < d.dstPalNumEntries)
  | 4 => (List.range d.width.toNat).all (fun i => pixVal4 buf i < d.dstPalNumEntries)
  | 8 => (List.range d.width.toNat).all (fun i => pixVal8 buf i < d.dstPalNumEntries)
  | _ => true

/-- The image kind and stride match the decoder, as `Decode` allocates
them. -/
def goodImg (d : Decoder) (img : Img) : Prop :=
  ((d.bitCount = 1 ∨ d.bitCount = 4 ∨ d.bitCount = 8) ∧ img.isIndexed = true ∧
    img.strideOf = d.width.toNat) ∨
  (d.bitCount = 24 ∧ img.isIndexed = false ∧ img.strideOf = 4 * d.width.toNat)

/-- Decoder state mirroring a 2x2 8-bit bottom-up decode, for exercising
the row-placement law. -/
def c3d : Decoder :=
  { width := 2, height := 2, bitCount := 8, dstPalNumEntries := 2 }

/-- A 2x2 paletted image buffer before row decoding. -/
def c3img : Img :=
  Img.paletted { width := 2, height := 2, stride := 2, pix := [0, 0, 0, 0], palette := [] }

/-- The image obtained from decoding rows `[0,1]` and `[1,1]` bottom-up
into `c3img`. -/
def c3out : Img :=
  Img.paletted { width := 2, height := 2, stride := 2, pix := [1, 1, 0, 1], palette := [] }

/-! ### Basic facts about the byte stream primitives -/

theorem readFull_of_le {n : Nat} {s : List Nat} (h : n ≤ s.length) :
    readFull n s = Except.ok (s.take n, s.drop n) := by
  simp [readFull, h]

theorem readFull_of_lt {n : Nat} {s : List Nat} (h : s.length < n) :
    readFull n s = Except.error BmpErr.ioErr := by
  rw [readFull, if_neg (by omega)]

theorem getD_append_left {xs ys : List Nat} {i : Nat} (h : i < xs.length) (a : Nat) :
    (xs ++ ys).getD i a = xs.getD i a := by
  simp [List.getD_eq_getElem?_getD, List.getElem?_append_left h]

theorem getD_drop (xs : List Nat) (k i a : Nat) :
    (xs.drop k).getD i a = xs.getD (k + i) a := by
  simp [List.getD_eq_getElem?_getD, List.getElem?_drop]

theorem getD_take {xs : List Nat} {n i : Nat} (h : i < n) (a : Nat) :
    (xs.take n).getD i a = xs.getD i a := by
  simp [List.getD_eq_getElem?_getD, List.getElem?_take_of_lt h]

theorem getWORD_append {xs ys : List Nat} (h : xs.length = 2) :
    getWORD (xs ++ ys) = getWORD xs := by
  unfold getWORD
  rw [getD_append_left (by omega), getD_append_left (by omega)]

theorem getDWORD_append {xs ys : List Nat} (h : xs.length = 4) :
    getDWORD (xs ++ ys) = getDWORD xs := by
  unfold getDWORD
  rw [getD_append_left (by omega), getD_append_left (by omega),
    getD_append_left (by omega), getD_append_left (by omega)]

theorem skipBytesLoop_ok : ∀ (n : Nat) (s : List Nat), n ≤ s.length →
    skipBytesLoop n s = Except.ok (s.drop n)
  | 0, s, _ => by simp [skipBytesLoop]
  | n + 1, s, h => by
    have step : skipBytesLoop (n + 1) s =
        skipBytesLoop (n + 1 - min 1024 (n + 1)) (s.drop (min 1024 (n + 1))) := by
      rw [skipBytesLoop, readFull_of_le (by omega)]
    rw [step, skipBytesLoop_ok (n + 1 - min 1024 (n + 1)) (s.drop (min 1024 (n + 1)))
      (by simp; omega)]
    rw [List.drop_drop]
    congr 2
    omega
  termination_by n => n
  decreasing_by omega

/-! ### Claim C5: the gap step -/

/-- C5: during full decode, `readGap` computes
`computedOffset = 14 + headerSize + bitFieldsSize + srcPalSizeInBytes`
(where `srcPalSizeInBytes = sourcePaletteCount * 4` after `readHeaders`);
it consumes nothing when the computed offset equals the declared
`bfOffBits`, fails with the format error "bad bfOffBits field" when the
computed offset exceeds it (no negative skip is attempted), and
otherwise discards exactly `bfOffBits - computedOffset` bytes. -/
theorem readGap_spec (d : Decoder) (s : List Nat) :
    (14 + d.headerSize + d.bitFieldsSize + d.srcPalSizeInBytes = d.bfOffBits →
      readGap d s = Except.ok s) ∧
    (d.bfOffBits < 14 + d.headerSize + d.bitFieldsSize + d.srcPalSizeInBytes →
      readGap d s = Except.error (BmpErr.format "bad bfOffBits field")) ∧
    (∀ gap : Nat,
      d.bfOffBits = 14 + d.headerSize + d.bitFieldsSize + d.srcPalSizeInBytes + gap →
      0 < gap → gap ≤ s.length →
      readGap d s = Except.ok (s.drop gap)) := by
  refine ⟨fun h => ?_, fun h => ?_, fun gap hoff hpos hlen => ?_⟩
  · rw [readGap, if_pos (by omega)]
  · rw [readGap, if_neg (by omega), if_pos (by omega)]
  · rw [readGap, if_neg (by omega), if_neg (by omega)]
    rw [skipBytes, show (((d.bfOffBits : Int) -
        (14 + (d.headerSize : Int) + (d.bitFieldsSize : Int) +
          (d.srcPalSizeInBytes : Int))).toNat) = gap by omega]
    exact skipBytesLoop_ok gap s hlen




/-- Witness for `readGap_spec` at concrete decoders: no gap, a negative
gap (error), and a 2-byte gap. -/
theorem readGap_spec_witness :
    readGap gapDecoderEq [7, 7, 7] = Except.ok [7, 7, 7] ∧
    readGap gapDecoderLt [7, 7, 7] =
      Except.error (BmpErr.format "bad bfOffBits field") ∧
    readGap gapDecoderGt [7, 7, 7] = Except.ok [7] :=
  ⟨(readGap_spec gapDecoderEq _).1 (by decide),
   (readGap_spec gapDecoderLt _).2.1 (by decide),
   (readGap_spec gapDecoderGt [7, 7, 7]).2.2 2 (by decide) (by decide) (by decide)⟩

/-! ### Claim C1: the signature check -/

theorem readHeaders_badsig {d0 : Decoder} {co : Bool} {s : List Nat}
    (h18 : 18 ≤ s.length) (hsig : s.getD 0 0 ≠ 0x42 ∨ s.getD 1 0 ≠ 0x4d) :
    readHeaders d0 co s = Except.error (BmpErr.format "not a BMP file") := by
  have h14 : (s.take 18).take 14 = s.take 14 := by
    rw [List.take_take]; norm_num
  have hcond : (s.take 14).getD 0 0 ≠ 0x42 ∨ (s.take 14).getD 1 0 ≠ 0x4d := by
    rcases hsig with h | h
    · exact Or.inl (by rw [getD_take (by omega)]; exact h)
    · exact Or.inr (by rw [getD_take (by omega)]; exact h)
  have hdfh : decodeFileHeader d0 (s.take 14) =
      Except.error (BmpErr.format "not a BMP file") := by
    rw [decodeFileHeader, if_pos hcond]
  simp only [readHeaders, readFull_of_le h18, h14, hdfh]

theorem readHeaders_short {d0 : Decoder} {co : Bool} {s : List Nat}
    (h : s.length < 18) :
    readHeaders d0 co s = Except.error BmpErr.ioErr := by
  rw [readHeaders, readFull_of_lt h]

theorem Decode_error_of_readHeaders {s : List Nat} {e : BmpErr}
    (h : readHeaders {} false s = Except.error e) :
    Decode s = Except.error e := by
  rw [Decode, h]

theorem DecodeConfig_error_of_readHeaders {s : List Nat} {e : BmpErr}
    (h : readHeaders {} true s = Except.error e) :
    DecodeConfig s = Except.error e := by
  rw [DecodeConfig, h]

/-- C1 (amended): on any input of at least 18 bytes whose first two bytes
are not the `BM` signature, both `Decode` and `DecodeConfig` fail with
the format error "not a BMP file"; but the decoder reads 18 bytes (the
whole 14-byte file header plus the first 4 info-header bytes) before
checking the signature, so an input shorter than 18 bytes fails with the
propagated read error instead of a format error. -/
theorem signature_check_spec (s : List Nat) :
    (18 ≤ s.length → (s.getD 0 0 ≠ 0x42 ∨ s.getD 1 0 ≠ 0x4d) →
      Decode s = Except.error (BmpErr.format "not a BMP file") ∧
      DecodeConfig s = Except.error (BmpErr.format "not a BMP file")) ∧
    (s.length < 18 →
      Decode s = Except.error BmpErr.ioErr ∧
      DecodeConfig s = Except.error BmpErr.ioErr) := by
  constructor
  · intro h18 hsig
    exact ⟨Decode_error_of_readHeaders (readHeaders_badsig h18 hsig),
      DecodeConfig_error_of_readHeaders (readHeaders_badsig h18 hsig)⟩
  · intro h
    exact ⟨Decode_error_of_readHeaders (readHeaders_short h),
      DecodeConfig_error_of_readHeaders (readHeaders_short h)⟩

/-- Witness for `signature_check_spec`: an 18-byte input starting with
"XX" fails with the format error. -/
theorem signature_check_spec_witness :
    Decode ([0x58, 0x58] ++ List.replicate 16 0) =
      Except.error (BmpErr.format "not a BMP file") ∧
    DecodeConfig ([0x58, 0x58] ++ List.replicate 16 0) =
      Except.error (BmpErr.format "not a BMP file") :=
  (signature_check_spec ([0x58, 0x58] ++ List.replicate 16 0)).1
    (by decide) (by decide)

/-- C1 counterexample: the two-byte input "XX" has a non-`BM` signature,
yet both entry points fail with the propagated read error, not with a
format error mentioning "not a BMP file" — the decoder demands 18 bytes
(not 2) before the signature check. -/
theorem signature_two_bytes_cex :
    Decode [0x58, 0x58] = Except.error BmpErr.ioErr ∧
    DecodeConfig [0x58, 0x58] = Except.error BmpErr.ioErr ∧
    Decode [0x58, 0x58] ≠ Except.error (BmpErr.format "not a BMP file") := by
  have h1 : Decode [0x58, 0x58] = Except.error BmpErr.ioErr :=
    Decode_error_of_readHeaders (readHeaders_short (by decide))
  have h2 : DecodeConfig [0x58, 0x58] = Except.error BmpErr.ioErr :=
    DecodeConfig_error_of_readHeaders (readHeaders_short (by decide))
  refine ⟨h1, h2, ?_⟩
  intro hbad
  rw [h1] at hbad
  exact absurd (Except.error.inj hbad) (by decide)

/-! ### Claim C10: the file-size and reserved bytes are ignored -/

theorem readHeaders_reserved_irrelevant (d0 : Decoder) (co : Bool)
    (a b b' t : List Nat) (ha : a.length = 2) (hb : b.length = 8)
    (hb' : b'.length = 8) :
    readHeaders d0 co (a ++ b ++ t) = readHeaders d0 co (a ++ b' ++ t) := by
  by_cases ht : 8 ≤ t.length
  · have h10 : (a ++ b).length = 10 := by simp [ha, hb]
    have h10' : (a ++ b').length = 10 := by simp [ha, hb']
    have len1 : 18 ≤ (a ++ b ++ t).length := by simp [ha, hb]; omega
    have len2 : 18 ≤ (a ++ b' ++ t).length := by simp [ha, hb']; omega
    have e1 : (a ++ b ++ t).take 18 = a ++ b ++ t.take 8 := by
      rw [show (18 : Nat) = (a ++ b).length + 8 by omega, List.take_append]
    have e1' : (a ++ b' ++ t).take 18 = a ++ b' ++ t.take 8 := by
      rw [show (18 : Nat) = (a ++ b').length + 8 by omega, List.take_append]
    have e2 : (a ++ b ++ t).drop 18 = t.drop 8 := by
      rw [show (18 : Nat) = (a ++ b).length + 8 by omega, List.drop_append]
    have e2' : (a ++ b' ++ t).drop 18 = t.drop 8 := by
      rw [show (18 : Nat) = (a ++ b').length + 8 by omega, List.drop_append]
    have efh : ∀ c : List Nat, c.length = 8 →
        (a ++ c ++ t.take 8).take 14 = a ++ c ++ t.take 4 := by
      intro c hc
      rw [show (14 : Nat) = (a ++ c).length + 4 by simp [ha, hc],
        List.take_append, List.take_take]
      norm_num
    have edfh : decodeFileHeader d0 ((a ++ b ++ t.take 8).take 14) =
        decodeFileHeader d0 ((a ++ b' ++ t.take 8).take 14) := by
      rw [efh b hb, efh b' hb']
      unfold decodeFileHeader
      have g0 : ∀ c : List Nat, c.length = 8 →
          (a ++ c ++ t.take 4).getD 0 0 = a.getD 0 0 := by
        intro c hc
        rw [List.append_assoc, getD_append_left (by omega)]
      have g1 : ∀ c : List Nat, c.length = 8 →
          (a ++ c ++ t.take 4).getD 1 0 = a.getD 1 0 := by
        intro c hc
        rw [List.append_assoc, getD_append_left (by omega)]
      have g10 : ∀ c : List Nat, c.length = 8 →
          (a ++ c ++ t.take 4).drop 10 = t.take 4 := by
        intro c hc
        exact List.drop_left' (by simp [ha, hc])
      rw [g0 b hb, g0 b' hb', g1 b hb, g1 b' hb', g10 b hb, g10 b' hb']
    have ehs : ((a ++ b ++ t.take 8)).drop 14 = ((a ++ b' ++ t.take 8)).drop 14 := by
      rw [show (14 : Nat) = (a ++ b).length + 4 by omega, List.drop_append,
        show (a ++ b).length + 4 = (a ++ b').length + 4 by omega, List.drop_append]
    simp only [readHeaders, readFull_of_le len1, readFull_of_le len2,
      e1, e1', e2, e2']
    rw [edfh, ehs]
  · have len1 : (a ++ b ++ t).length < 18 := by simp [ha, hb]; omega
    have len2 : (a ++ b' ++ t).length < 18 := by simp [ha, hb']; omega
    rw [readHeaders_short len1, readHeaders_short len2]

/-- C10: the eight bytes at offsets 2 through 9 of the file header (file
size and reserved fields) never influence the result of `Decode` or
`DecodeConfig`: two inputs that differ only there produce identical
outcomes. -/
theorem reserved_bytes_ignored (a b b' t : List Nat) (ha : a.length = 2)
    (hb : b.length = 8) (hb' : b'.length = 8) :
    Decode (a ++ b ++ t) = Decode (a ++ b' ++ t) ∧
    DecodeConfig (a ++ b ++ t) = DecodeConfig (a ++ b' ++ t) := by
  constructor
  · rw [Decode, Decode, readHeaders_reserved_irrelevant {} false a b b' t ha hb hb']
  · rw [DecodeConfig, DecodeConfig,
      readHeaders_reserved_irrelevant {} true a b b' t ha hb hb']

/-- Witness for `reserved_bytes_ignored`: two concrete 2-byte inputs
padded to 18 bytes differing only in the reserved region. -/
theorem reserved_bytes_ignored_witness :
    Decode ([0x42, 0x4d] ++ [0, 0, 0, 0, 0, 0, 0, 0] ++ List.replicate 8 0) =
      Decode ([0x42, 0x4d] ++ [9, 9, 9, 9, 9, 9, 9, 9] ++ List.replicate 8 0) ∧
    DecodeConfig ([0x42, 0x4d] ++ [0, 0, 0, 0, 0, 0, 0, 0] ++ List.replicate 8 0) =
      DecodeConfig ([0x42, 0x4d] ++ [9, 9, 9, 9, 9, 9, 9, 9] ++ List.replicate 8 0) :=
  reserved_bytes_ignored [0x42, 0x4d] [0, 0, 0, 0, 0, 0, 0, 0]
    [9, 9, 9, 9, 9, 9, 9, 9] (List.replicate 8 0) (by decide) (by decide) (by decide)

/-! ### Image accessors -/








/-! ### Characterizing `decodeInfoHeader40` -/

/-- Fields established by a successful `decodeInfoHeader40`, in either
mode. -/
theorem dih40_ok_common {d : Decoder} {h : List Nat} {co : Bool} {d2 : Decoder}
    (hk : decodeInfoHeader40 d h co = Except.ok d2) :
    d2.width = toInt32 (getDWORD (h.drop 4)) ∧
    d2.height = (if toInt32 (getDWORD (h.drop 8)) < 0 then -toInt32 (getDWORD (h.drop 8))
      else toInt32 (getDWORD (h.drop 8))) ∧
    d2.isTopDown = (if toInt32 (getDWORD (h.drop 8)) < 0 then true else d.isTopDown) ∧
    d2.bitCount = getWORD (h.drop 14) ∧
    d2.headerSize = d.headerSize ∧
    d2.dstHasPalette = d.dstHasPalette ∧
    d2.bfOffBits = d.bfOffBits ∧
    1 ≤ d2.width ∧ 1 ≤ d2.height := by
  simp only [decodeInfoHeader40] at hk
  by_cases hw : toInt32 (getDWORD (h.drop 4)) < 1
  · rw [if_pos hw] at hk; exact absurd hk (by simp)
  rw [if_neg hw] at hk
  by_cases hht : (if toInt32 (getDWORD (h.drop 8)) < 0 then -toInt32 (getDWORD (h.drop 8))
      else toInt32 (getDWORD (h.drop 8))) < 1
  · rw [if_pos hht] at hk; exact absurd hk (by simp)
  rw [if_neg hht] at hk
  cases co with
  | true =>
    rw [if_pos rfl] at hk
    have := Except.ok.inj hk
    subst this
    refine ⟨rfl, rfl, rfl, rfl, rfl, rfl, rfl, ?_, ?_⟩
    · show (1 : Int) ≤ toInt32 (getDWORD (h.drop 4))
      omega
    · show (1 : Int) ≤ (if toInt32 (getDWORD (h.drop 8)) < 0 then
        -toInt32 (getDWORD (h.drop 8)) else toInt32 (getDWORD (h.drop 8)))
      omega
  | false =>
    rw [if_neg (by simp)] at hk
    by_cases hcomp : getDWORD (h.drop 16) ≠ bI_RGB ∧ getDWORD (h.drop 16) ≠ bI_RLE4 ∧
        getDWORD (h.drop 16) ≠ bI_RLE8 ∧ getDWORD (h.drop 16) ≠ bI_BITFIELDS
    · rw [if_pos hcomp] at hk; exact absurd hk (by simp)
    rw [if_neg hcomp] at hk
    by_cases hcu : 10000 < getDWORD (h.drop 32)
    · rw [if_pos hcu] at hk
      exact absurd hk (by simp)
    rw [if_neg hcu] at hk
    by_cases hbf : getDWORD (h.drop 16) = bI_BITFIELDS ∧ d.headerSize = 40 <;>
    by_cases hbc : 1 ≤ getWORD (h.drop 14) ∧ getWORD (h.drop 14) ≤ 8 <;>
    by_cases hcu0 : getDWORD (h.drop 32) = 0 <;>
    all_goals (
      (first | rw [if_pos hbf] at hk | rw [if_neg hbf] at hk);
      (first | rw [if_pos hbc] at hk | rw [if_neg hbc] at hk);
      (first | rw [if_pos hcu0] at hk | rw [if_neg hcu0] at hk | skip);
      (have heq := Except.ok.inj hk);
      subst heq;
      refine ⟨rfl, rfl, rfl, rfl, rfl, rfl, rfl, ?_, ?_⟩ <;>
        first
          | (show (1 : Int) ≤ toInt32 (getDWORD (h.drop 4)); omega)
          | (show (1 : Int) ≤ (if toInt32 (getDWORD (h.drop 8)) < 0 then
              -toInt32 (getDWORD (h.drop 8)) else toInt32 (getDWORD (h.drop 8)));
             omega))

/-- Failure of `decodeInfoHeader40` on a non-positive width, in either
mode, with the offending value in the message. -/
theorem dih40_bad_width {d : Decoder} {h : List Nat} {co : Bool}
    (hw : toInt32 (getDWORD (h.drop 4)) < 1) :
    decodeInfoHeader40 d h co =
      Except.error (BmpErr.format ("bad width " ++ toString (toInt32 (getDWORD (h.drop 4))))) := by
  simp only [decodeInfoHeader40]
  rw [if_pos hw]

/-- Failure of `decodeInfoHeader40` on a non-positive normalized height,
in either mode, with the offending value in the message. -/
theorem dih40_bad_height {d : Decoder} {h : List Nat} {co : Bool}
    (hw : 1 ≤ toInt32 (getDWORD (h.drop 4)))
    (hht : (if toInt32 (getDWORD (h.drop 8)) < 0 then -toInt32 (getDWORD (h.drop 8))
      else toInt32 (getDWORD (h.drop 8))) < 1) :
    decodeInfoHeader40 d h co =
      Except.error (BmpErr.format ("bad height " ++
        toString (if toInt32 (getDWORD (h.drop 8)) < 0 then -toInt32 (getDWORD (h.drop 8))
          else toInt32 (getDWORD (h.drop 8))))) := by
  simp only [decodeInfoHeader40]
  rw [if_neg (by omega), if_pos hht]

/-- Additional fields established by a successful full-mode
`decodeInfoHeader40`. -/
theorem dih40_full_ok_extras {d : Decoder} {h : List Nat} {d2 : Decoder}
    (hk : decodeInfoHeader40 d h false = Except.ok d2) :
    d2.biCompression = getDWORD (h.drop 16) ∧
    d2.srcPalBytesPerEntry = 4 ∧
    d2.srcPalNumEntries =
      (if 1 ≤ getWORD (h.drop 14) ∧ getWORD (h.drop 14) ≤ 8 then
        if getDWORD (h.drop 32) = 0 then 2 ^ getWORD (h.drop 14) else getDWORD (h.drop 32)
      else getDWORD (h.drop 32)) ∧
    getDWORD (h.drop 32) ≤ 10000 ∧
    d2.bitFieldsSize =
      (if getDWORD (h.drop 16) = bI_BITFIELDS ∧ d.headerSize = 40 then 12
        else d.bitFieldsSize) ∧
    (getDWORD (h.drop 16) = bI_RGB ∨ getDWORD (h.drop 16) = bI_RLE4 ∨
      getDWORD (h.drop 16) = bI_RLE8 ∨ getDWORD (h.drop 16) = bI_BITFIELDS) := by
  simp only [decodeInfoHeader40] at hk
  by_cases hw : toInt32 (getDWORD (h.drop 4)) < 1
  · rw [if_pos hw] at hk; exact absurd hk (by simp)
  rw [if_neg hw] at hk
  by_cases hht : (if toInt32 (getDWORD (h.drop 8)) < 0 then -toInt32 (getDWORD (h.drop 8))
      else toInt32 (getDWORD (h.drop 8))) < 1
  · rw [if_pos hht] at hk; exact absurd hk (by simp)
  rw [if_neg hht] at hk
  rw [if_neg (by simp)] at hk
  by_cases hcomp : getDWORD (h.drop 16) ≠ bI_RGB ∧ getDWORD (h.drop 16) ≠ bI_RLE4 ∧
      getDWORD (h.drop 16) ≠ bI_RLE8 ∧ getDWORD (h.drop 16) ≠ bI_BITFIELDS
  · rw [if_pos hcomp] at hk; exact absurd hk (by simp)
  rw [if_neg hcomp] at hk
  by_cases hcu : 10000 < getDWORD (h.drop 32)
  · rw [if_pos hcu] at hk
    exact absurd hk (by simp)
  rw [if_neg hcu] at hk
  by_cases hbf : getDWORD (h.drop 16) = bI_BITFIELDS ∧ d.headerSize = 40 <;>
  by_cases hbc : 1 ≤ getWORD (h.drop 14) ∧ getWORD (h.drop 14) ≤ 8 <;>
  by_cases hcu0 : getDWORD (h.drop 32) = 0 <;>
  all_goals (
    (first | rw [if_pos hbf] at hk | rw [if_neg hbf] at hk);
    (first | rw [if_pos hbc] at hk | rw [if_neg hbc] at hk);
    (first | rw [if_pos hcu0] at hk | rw [if_neg hcu0] at hk | skip);
    (have heq := Except.ok.inj hk);
    subst heq;
    refine ⟨rfl, rfl, ?_, by omega, ?_, by tauto⟩ <;>
      simp [hbf, hbc, hcu0])

/-- Config-only parsing succeeds whenever full parsing does, with the
same width, height, orientation and bit depth (and no other field
touched). -/
theorem dih40_true_of_false_ok {d : Decoder} {h : List Nat} {d2 : Decoder}
    (hk : decodeInfoHeader40 d h false = Except.ok d2) :
    decodeInfoHeader40 d h true =
      Except.ok { d with width := d2.width, height := d2.height, isTopDown := d2.isTopDown, bitCount := d2.bitCount } := by
  obtain ⟨hW, hH, hT, hB, _, _, _, hw1, hh1⟩ := dih40_ok_common hk
  simp only [decodeInfoHeader40]
  rw [if_neg (by omega), if_neg (by omega), if_pos trivial, hW, hH, hT, hB]

/-! ### Claim C7: the colors-used field -/

/-- C7: in full-mode header parsing, a declared colors-used count over
10000 fails with a format error naming the value; a zero count with bit
depth 1..8 defaults the source palette size to `2 ^ bitCount`; any other
count is used verbatim, including for bit depths outside 1..8. -/
theorem colorsUsed_spec (d : Decoder) (h : List Nat)
    (hw : 1 ≤ toInt32 (getDWORD (h.drop 4)))
    (hht : 1 ≤ (if toInt32 (getDWORD (h.drop 8)) < 0 then -toInt32 (getDWORD (h.drop 8))
      else toInt32 (getDWORD (h.drop 8))))
    (hcomp : getDWORD (h.drop 16) = bI_RGB ∨ getDWORD (h.drop 16) = bI_RLE4 ∨
      getDWORD (h.drop 16) = bI_RLE8 ∨ getDWORD (h.drop 16) = bI_BITFIELDS) :
    (10000 < getDWORD (h.drop 32) →
      decodeInfoHeader40 d h false =
        Except.error (BmpErr.format ("bad palette size " ++ toString (getDWORD (h.drop 32))))) ∧
    (getDWORD (h.drop 32) ≤ 10000 →
      ∃ d2, decodeInfoHeader40 d h false = Except.ok d2 ∧
        d2.srcPalNumEntries =
          (if 1 ≤ getWORD (h.drop 14) ∧ getWORD (h.drop 14) ≤ 8 then
            if getDWORD (h.drop 32) = 0 then 2 ^ getWORD (h.drop 14)
            else getDWORD (h.drop 32)
          else getDWORD (h.drop 32))) := by
  simp only [decodeInfoHeader40]
  rw [if_neg (by omega), if_neg (by omega), if_neg (by simp), if_neg (by tauto)]
  constructor
  · intro hcu
    rw [if_pos hcu]
  · intro hcu
    rw [if_neg (by omega)]
    refine ⟨_, rfl, ?_⟩
    by_cases hbc : 1 ≤ getWORD (h.drop 14) ∧ getWORD (h.drop 14) ≤ 8 <;>
    by_cases hcu0 : getDWORD (h.drop 32) = 0 <;>
    simp [hbc, hcu0]


/-- Witness for `colorsUsed_spec`: a 1-bit header with colors-used 0
synthesizes exactly 2 source palette entries. -/
theorem colorsUsed_spec_witness :
    ∃ d2, decodeInfoHeader40 {} c7h false = Except.ok d2 ∧ d2.srcPalNumEntries = 2 := by
  obtain ⟨d2, hd2, hn⟩ :=
    (colorsUsed_spec {} c7h (by decide) (by decide) (by decide)).2 (by decide)
  refine ⟨d2, hd2, ?_⟩
  rw [hn]
  decide

/-! ### Congruence helpers for the little-endian readers -/

theorem getDWORD_drop_congr {h h' : List Nat} (k : Nat)
    (hgd : ∀ i, k ≤ i → i < k + 4 → h.getD i 0 = h'.getD i 0) :
    getDWORD (h.drop k) = getDWORD (h'.drop k) := by
  unfold getDWORD
  simp only [getD_drop]
  rw [hgd (k + 0) (by omega) (by omega), hgd (k + 1) (by omega) (by omega),
    hgd (k + 2) (by omega) (by omega), hgd (k + 3) (by omega) (by omega)]

theorem getWORD_drop_congr {h h' : List Nat} (k : Nat)
    (hgd : ∀ i, k ≤ i → i < k + 2 → h.getD i 0 = h'.getD i 0) :
    getWORD (h.drop k) = getWORD (h'.drop k) := by
  unfold getWORD
  simp only [getD_drop]
  rw [hgd (k + 0) (by omega) (by omega), hgd (k + 1) (by omega) (by omega)]

/-! ### Claim C6: compression handling -/


/-- C6: config-only header parsing never reads the compression field (its
result depends only on the first 16 header bytes, which end before the
compression field at offset 16); full decode rejects every compression
value other than 0 with an unsupported-feature error; and on a concrete
8-bit file with compression 2, `DecodeConfig` succeeds while `Decode`
fails with the unsupported-feature error naming the value. -/
theorem compression_handling_spec :
    (∀ (d : Decoder) (h h' : List Nat), h.take 16 = h'.take 16 →
      decodeInfoHeader40 d h true = decodeInfoHeader40 d h' true) ∧
    (∀ (s s1 : List Nat) (d : Decoder), readHeaders {} false s = Except.ok (d, s1) →
      d.biCompression ≠ 0 →
      Decode s = Except.error
        (BmpErr.unsupported ("compression or image type " ++ toString d.biCompression))) ∧
    (DecodeConfig c6file = Except.ok { width := 1, height := 1, colorModelIndexed := true } ∧
      Decode c6file = Except.error (BmpErr.unsupported "compression or image type 2")) := by
  refine ⟨?_, ?_, ?_, ?_⟩
  · intro d h h' hpre
    have hgd : ∀ i, i < 16 → h.getD i 0 = h'.getD i 0 := by
      intro i hi
      rw [← @getD_take h _ _ hi 0, ← @getD_take h' _ _ hi 0, hpre]
    have e4 : getDWORD (h.drop 4) = getDWORD (h'.drop 4) :=
      getDWORD_drop_congr 4 (fun i _ hi2 => hgd i (by omega))
    have e8 : getDWORD (h.drop 8) = getDWORD (h'.drop 8) :=
      getDWORD_drop_congr 8 (fun i _ hi2 => hgd i (by omega))
    have e14 : getWORD (h.drop 14) = getWORD (h'.drop 14) :=
      getWORD_drop_congr 14 (fun i _ hi2 => hgd i (by omega))
    simp only [decodeInfoHeader40, e4, e8, e14]
    rw [if_pos trivial, if_pos trivial]
  · intro s s1 d hk hc
    simp only [Decode, hk]
    rw [if_pos (show d.biCompression ≠ bI_RGB by simpa [bI_RGB] using hc)]
  · decide
  · decide

/-! ### Decomposing successful header parsing -/

theorem readInfoHeader_ok_elim {d : Decoder}
    {fn : Decoder → List Nat → Bool → Except BmpErr Decoder}
    {co : Bool} {s : List Nat} {d3 : Decoder} {s2 : List Nat}
    (hk : readInfoHeader d fn co s = Except.ok (d3, s2)) :
    ∃ d2 : Decoder, d.headerSize - 4 ≤ s.length ∧
      fn d (List.replicate 4 0 ++ s.take (d.headerSize - 4)) co = Except.ok d2 ∧
      s2 = s.drop (d.headerSize - 4) ∧
      d3 = (if 1 ≤ d2.bitCount ∧ d2.bitCount ≤ 8 then { d2 with dstHasPalette := true }
        else d2) := by
  by_cases hlen : d.headerSize - 4 ≤ s.length
  · simp only [readInfoHeader, readFull_of_le hlen] at hk
    cases hfn : fn d (List.replicate 4 0 ++ s.take (d.headerSize - 4)) co with
    | error e => rw [hfn] at hk; exact absurd hk (by simp)
    | ok d2 =>
      rw [hfn] at hk
      simp only [Except.ok.injEq, Prod.mk.injEq] at hk
      exact ⟨d2, hlen, rfl, hk.2.symm, hk.1.symm⟩
  · rw [readInfoHeader, readFull_of_lt (by omega)] at hk
    exact absurd hk (by simp)

theorem readHeaders_ok_elim {d0 : Decoder} {co : Bool} {s : List Nat}
    {dd : Decoder} {s1 : List Nat}
    (hk : readHeaders d0 co s = Except.ok (dd, s1)) :
    ∃ d2 : Decoder,
      18 ≤ s.length ∧
      s.getD 0 0 = 0x42 ∧ s.getD 1 0 = 0x4d ∧
      getDWORD ((s.take 18).drop 14) = 40 ∧
      decodeInfoHeader40
        { d0 with bfOffBits := getDWORD ((s.take 14).drop 10), headerSize := 40 }
        (List.replicate 4 0 ++ (s.drop 18).take 36) co = Except.ok d2 ∧
      36 ≤ (s.drop 18).length ∧
      s1 = (s.drop 18).drop 36 ∧
      dd = { (if 1 ≤ d2.bitCount ∧ d2.bitCount ≤ 8 then { d2 with dstHasPalette := true }
          else d2) with
        srcPalSizeInBytes := d2.srcPalNumEntries * d2.srcPalBytesPerEntry } := by
  by_cases h18 : 18 ≤ s.length
  · have h14 : (s.take 18).take 14 = s.take 14 := by
      rw [List.take_take]; norm_num
    simp only [readHeaders, readFull_of_le h18, h14] at hk
    by_cases hsig : (s.take 14).getD 0 0 ≠ 0x42 ∨ (s.take 14).getD 1 0 ≠ 0x4d
    · rw [decodeFileHeader, if_pos hsig] at hk
      exact absurd hk (by simp)
    · rw [decodeFileHeader, if_neg hsig] at hk
      push_neg at hsig
      simp only [] at hk
      by_cases hhs : getDWORD ((s.take 18).drop 14) = 40
      · rw [if_pos (by simpa using hhs), hhs] at hk
        cases hri : readInfoHeader
            { d0 with bfOffBits := getDWORD ((s.take 14).drop 10), headerSize := 40 }
            decodeInfoHeader40 co (s.drop 18) with
        | error e =>
          rw [hri] at hk
          exact absurd hk (by simp)
        | ok pr =>
          obtain ⟨d4, s3⟩ := pr
          rw [hri] at hk
          simp only [Except.ok.injEq, Prod.mk.injEq] at hk
          obtain ⟨d2, hlen36, hfn, hs3, hd4⟩ := readInfoHeader_ok_elim hri
          refine ⟨d2, h18, ?_, ?_, hhs, ?_, ?_, ?_, ?_⟩
          · rw [← getD_take (show 0 < 14 by omega) 0]; exact hsig.1
          · rw [← getD_take (show 1 < 14 by omega) 0]; exact hsig.2
          · simpa using hfn
          · simpa using hlen36
          · rw [← hk.2, hs3]
            norm_num
          · rw [hd4] at hk
            rw [← hk.1]
            by_cases hbc : 1 ≤ d2.bitCount ∧ d2.bitCount ≤ 8 <;> simp [hbc]
      · rw [if_neg (by simpa using hhs)] at hk
        exact absurd hk (by simp)
  · rw [readHeaders_short (by omega)] at hk
    exact absurd hk (by simp)

/-! ### Forward (introduction) forms of the header parsers -/

theorem readInfoHeader_ok_intro {d : Decoder}
    {fn : Decoder → List Nat → Bool → Except BmpErr Decoder}
    {co : Bool} {s : List Nat} {d2 : Decoder}
    (hlen : d.headerSize - 4 ≤ s.length)
    (hfn : fn d (List.replicate 4 0 ++ s.take (d.headerSize - 4)) co = Except.ok d2) :
    readInfoHeader d fn co s =
      Except.ok ((if 1 ≤ d2.bitCount ∧ d2.bitCount ≤ 8 then { d2 with dstHasPalette := true }
        else d2), s.drop (d.headerSize - 4)) := by
  simp only [readInfoHeader, readFull_of_le hlen, hfn]

theorem readHeaders_ok_intro {d0 : Decoder} {co : Bool} {s : List Nat} {d2 : Decoder}
    (h18 : 18 ≤ s.length)
    (hb0 : s.getD 0 0 = 0x42) (hb1 : s.getD 1 0 = 0x4d)
    (hhs : getDWORD ((s.take 18).drop 14) = 40)
    (h36 : 36 ≤ (s.drop 18).length)
    (hfn : decodeInfoHeader40
      { d0 with bfOffBits := getDWORD ((s.take 14).drop 10), headerSize := 40 }
      (List.replicate 4 0 ++ (s.drop 18).take 36) co = Except.ok d2) :
    readHeaders d0 co s =
      Except.ok ({ (if 1 ≤ d2.bitCount ∧ d2.bitCount ≤ 8 then { d2 with dstHasPalette := true }
          else d2) with
        srcPalSizeInBytes := d2.srcPalNumEntries * d2.srcPalBytesPerEntry },
        (s.drop 18).drop 36) := by
  have h14 : (s.take 18).take 14 = s.take 14 := by
    rw [List.take_take]; norm_num
  have hdfh : decodeFileHeader d0 (s.take 14) =
      Except.ok { d0 with bfOffBits := getDWORD ((s.take 14).drop 10) } := by
    rw [decodeFileHeader, if_neg]
    push_neg
    exact ⟨by rw [getD_take (by omega)]; exact hb0, by rw [getD_take (by omega)]; exact hb1⟩
  have hri := @readInfoHeader_ok_intro
    { d0 with bfOffBits := getDWORD ((s.take 14).drop 10), headerSize := 40 }
    decodeInfoHeader40 co (s.drop 18) d2
    (by simpa using h36) (by simpa using hfn)
  simp only [readHeaders, readFull_of_le h18, h14, hdfh]
  rw [hhs, if_pos rfl, hri]
  by_cases hbc : 1 ≤ d2.bitCount ∧ d2.bitCount ≤ 8 <;> simp [hbc]

/-! ### Shape preservation through the row decoders -/

theorem decodeRowPalLoop_preserves (pv : List Nat → Nat → Nat) (d : Decoder)
    (buf : List Nat) (j : Nat) :
    ∀ (l : List Nat) (p q : Paletted), decodeRowPalLoop pv d buf j p l = Except.ok q →
      q.width = p.width ∧ q.height = p.height ∧ q.stride = p.stride ∧
      q.palette = p.palette ∧ q.pix.length = p.pix.length := by
  intro l
  induction l with
  | nil =>
    intro p q hk
    rw [decodeRowPalLoop] at hk
    have := Except.ok.inj hk
    subst this
    exact ⟨rfl, rfl, rfl, rfl, rfl⟩
  | cons i rest ih =>
    intro p q hk
    rw [decodeRowPalLoop] at hk
    by_cases hc : d.dstPalNumEntries ≤ pv buf i
    · rw [if_pos hc] at hk
      exact absurd hk (by simp)
    · rw [if_neg hc] at hk
      have h := ih _ q hk
      simpa using h

theorem decodeRow24Loop_preserves (buf : List Nat) (j : Nat) :
    ∀ (l : List Nat) (p : NRGBA),
      (decodeRow24Loop buf j p l).width = p.width ∧
      (decodeRow24Loop buf j p l).height = p.height ∧
      (decodeRow24Loop buf j p l).stride = p.stride ∧
      (decodeRow24Loop buf j p l).pix.length = p.pix.length := by
  intro l
  induction l with
  | nil => intro p; exact ⟨rfl, rfl, rfl, rfl⟩
  | cons i rest ih =>
    intro p
    rw [decodeRow24Loop]
    have h := ih { p with pix := ((((p.pix.set (j * p.stride + i * 4 + 0)
      (buf.getD (i * 3 + 2) 0)).set (j * p.stride + i * 4 + 1) (buf.getD (i * 3 + 1) 0)).set
      (j * p.stride + i * 4 + 2) (buf.getD (i * 3 + 0) 0)).set
      (j * p.stride + i * 4 + 3) 255) }
    simpa using h

theorem rowFunc_preserves {d : Decoder}
    {f : Decoder → List Nat → Img → Nat → Except BmpErr Img}
    (hf : rowFuncFor d.bitCount = some f)
    {buf : List Nat} {img : Img} {j : Nat} {img2 : Img}
    (hk : f d buf img j = Except.ok img2) :
    img2.widthOf = img.widthOf ∧ img2.heightOf = img.heightOf ∧
    img2.isIndexed = img.isIndexed ∧ img2.paletteOf = img.paletteOf ∧
    img2.strideOf = img.strideOf ∧ img2.pixOf.length = img.pixOf.length := by
  have palCase : ∀ pv, decodeRowPal pv d buf img j = Except.ok img2 →
      img2.widthOf = img.widthOf ∧ img2.heightOf = img.heightOf ∧
      img2.isIndexed = img.isIndexed ∧ img2.paletteOf = img.paletteOf ∧
      img2.strideOf = img.strideOf ∧ img2.pixOf.length = img.pixOf.length := by
    intro pv hkp
    cases img with
    | paletted p =>
      rw [decodeRowPal] at hkp
      cases hq : decodeRowPalLoop pv d buf j p (List.range d.width.toNat) with
      | error e => rw [hq] at hkp; exact absurd hkp (by simp [Except.map])
      | ok q =>
        rw [hq] at hkp
        simp only [Except.map] at hkp
        have := Except.ok.inj hkp
        subst this
        obtain ⟨h1, h2, h3, h4, h5⟩ := decodeRowPalLoop_preserves pv d buf j _ p q hq
        exact ⟨h1, h2, rfl, h4, h3, h5⟩
    | nrgba p =>
      rw [decodeRowPal] at hkp
      exact absurd hkp (by simp)
  unfold rowFuncFor at hf
  split at hf
  · cases Option.some.inj hf; exact palCase pixVal1 hk
  · cases Option.some.inj hf; exact palCase pixVal4 hk
  · cases Option.some.inj hf; exact palCase pixVal8 hk
  · cases Option.some.inj hf
    cases img with
    | paletted p =>
      rw [decodeRow_24] at hk
      exact absurd hk (by simp)
    | nrgba p =>
      rw [decodeRow_24] at hk
      have := Except.ok.inj hk
      subst this
      obtain ⟨h1, h2, h3, h4⟩ := decodeRow24Loop_preserves buf j (List.range d.width.toNat) p
      exact ⟨h1, h2, rfl, rfl, h3, h4⟩
  · exact absurd hf (by simp)

theorem readBitsLoop_preserves {d : Decoder}
    {f : Decoder → List Nat → Img → Nat → Except BmpErr Img}
    (hf : rowFuncFor d.bitCount = some f) :
    ∀ (rows : List Nat) (img : Img) (s : List Nat) (img2 : Img) (s2 : List Nat),
      readBitsLoop d f img s rows = Except.ok (img2, s2) →
      img2.widthOf = img.widthOf ∧ img2.heightOf = img.heightOf ∧
      img2.isIndexed = img.isIndexed ∧ img2.paletteOf = img.paletteOf ∧
      img2.strideOf = img.strideOf ∧ img2.pixOf.length = img.pixOf.length := by
  intro rows
  induction rows with
  | nil =>
    intro img s img2 s2 hk
    rw [readBitsLoop] at hk
    simp only [Except.ok.injEq, Prod.mk.injEq] at hk
    rw [← hk.1]
    exact ⟨rfl, rfl, rfl, rfl, rfl, rfl⟩
  | cons r rest ih =>
    intro img s img2 s2 hk
    simp only [readBitsLoop] at hk
    cases hrf : readFull (srcRowStride d) s with
    | error e => rw [hrf] at hk; exact absurd hk (by simp)
    | ok pr =>
      obtain ⟨buf, s'⟩ := pr
      rw [hrf] at hk
      simp only [] at hk
      cases hfd : f d buf img (if d.isTopDown then r else d.height.toNat - r - 1) with
      | error e => rw [hfd] at hk; exact absurd hk (by simp)
      | ok imgm =>
        rw [hfd] at hk
        obtain ⟨a1, a2, a3, a4, a5, a6⟩ := rowFunc_preserves hf hfd
        obtain ⟨b1, b2, b3, b4, b5, b6⟩ := ih imgm s' img2 s2 hk
        exact ⟨b1.trans a1, b2.trans a2, b3.trans a3, b4.trans a4, b5.trans a5, b6.trans a6⟩

theorem readBits_preserves {d : Decoder} {img : Img} {s : List Nat}
    {img2 : Img} {s2 : List Nat}
    (hk : readBits d img s = Except.ok (img2, s2)) :
    img2.widthOf = img.widthOf ∧ img2.heightOf = img.heightOf ∧
    img2.isIndexed = img.isIndexed ∧ img2.paletteOf = img.paletteOf ∧
    img2.strideOf = img.strideOf ∧ img2.pixOf.length = img.pixOf.length := by
  rw [readBits] at hk
  cases hf : rowFuncFor d.bitCount with
  | none =>
    rw [hf] at hk
    simp only [Except.ok.injEq, Prod.mk.injEq] at hk
    rw [← hk.1]
    exact ⟨rfl, rfl, rfl, rfl, rfl, rfl⟩
  | some f =>
    rw [hf] at hk
    exact readBitsLoop_preserves hf _ img s img2 s2 hk

/-! ### Decomposing `readPalette` and `Decode` -/

theorem readPalette_ok_elim {d : Decoder} {s : List Nat} {d2 : Decoder} {s2 : List Nat}
    (hk : readPalette d s = Except.ok (d2, s2)) :
    d.srcPalSizeInBytes ≤ s.length ∧ s2 = s.drop d.srcPalSizeInBytes ∧
    d2.width = d.width ∧ d2.height = d.height ∧ d2.bitCount = d.bitCount ∧
    d2.dstHasPalette = d.dstHasPalette ∧ d2.biCompression = d.biCompression ∧
    d2.bfOffBits = d.bfOffBits ∧ d2.headerSize = d.headerSize ∧
    d2.bitFieldsSize = d.bitFieldsSize ∧ d2.srcPalSizeInBytes = d.srcPalSizeInBytes ∧
    d2.srcPalNumEntries = d.srcPalNumEntries ∧ d2.isTopDown = d.isTopDown ∧
    (d.dstHasPalette = true →
      d2.dstPalNumEntries = (if 256 < d.srcPalNumEntries then 256 else d.srcPalNumEntries) ∧
      d2.dstPalette =
        (List.range (if 256 < d.srcPalNumEntries then 256 else d.srcPalNumEntries)).map
          (fun i => RGBA.mk
            ((s.take d.srcPalSizeInBytes).getD (i * d.srcPalBytesPerEntry + 2) 0)
            ((s.take d.srcPalSizeInBytes).getD (i * d.srcPalBytesPerEntry + 1) 0)
            ((s.take d.srcPalSizeInBytes).getD (i * d.srcPalBytesPerEntry + 0) 0) 255)) ∧
    (d.dstHasPalette = false → d2.dstPalNumEntries = 0 ∧ d2.dstPalette = d.dstPalette) := by
  by_cases hlen : d.srcPalSizeInBytes ≤ s.length
  · simp only [readPalette, readFull_of_le hlen] at hk
    cases hp : d.dstHasPalette with
    | false =>
      rw [hp] at hk
      simp only [Bool.false_eq_true, not_false_iff, if_true, if_pos] at hk
      simp only [Except.ok.injEq, Prod.mk.injEq] at hk
      rw [← hk.1, ← hk.2]
      refine ⟨hlen, rfl, rfl, rfl, rfl, rfl, rfl, rfl, rfl, rfl, rfl, rfl, rfl, ?_, ?_⟩
      · intro hcontr; exact absurd hcontr (by simp)
      · intro _; exact ⟨rfl, rfl⟩
    | true =>
      rw [hp] at hk
      rw [if_neg (by simp)] at hk
      simp only [Except.ok.injEq, Prod.mk.injEq] at hk
      rw [← hk.1, ← hk.2]
      refine ⟨hlen, rfl, rfl, rfl, rfl, rfl, rfl, rfl, rfl, rfl, rfl, rfl, rfl, ?_, ?_⟩
      · intro _; exact ⟨rfl, rfl⟩
      · intro hcontr; exact absurd hcontr (by simp)
  · rw [readPalette, readFull_of_lt (by omega)] at hk
    exact absurd hk (by simp)

theorem Decode_ok_elim {s : List Nat} {img : Img} (hk : Decode s = Except.ok img) :
    ∃ (d d2 : Decoder) (s1 s2 s3 s4 : List Nat) (img0 : Img),
      readHeaders {} false s = Except.ok (d, s1) ∧
      d.biCompression = bI_RGB ∧
      (d.bitCount = 1 ∨ d.bitCount = 4 ∨ d.bitCount = 8 ∨ d.bitCount = 24) ∧
      (if 0 < d.srcPalNumEntries then readPalette d s1 else Except.ok (d, s1)) =
        Except.ok (d2, s2) ∧
      img0 = (if d2.dstHasPalette = true then
        Img.paletted (newPaletted d2.width d2.height d2.dstPalette)
        else Img.nrgba (newNRGBA d2.width d2.height)) ∧
      readGap d2 s2 = Except.ok s3 ∧
      readBits d2 img0 s3 = Except.ok (img, s4) := by
  rw [Decode] at hk
  cases hrh : readHeaders {} false s with
  | error e => rw [hrh] at hk; exact absurd hk (by simp)
  | ok pr =>
    obtain ⟨d, s1⟩ := pr
    rw [hrh] at hk
    simp only [] at hk
    by_cases hcomp : d.biCompression ≠ bI_RGB
    · rw [if_pos hcomp] at hk; exact absurd hk (by simp)
    rw [if_neg hcomp] at hk
    push_neg at hcomp
    by_cases hbc : d.bitCount = 1 ∨ d.bitCount = 4 ∨ d.bitCount = 8 ∨ d.bitCount = 24
    · rw [if_neg (not_not_intro hbc)] at hk
      cases hpal : (if 0 < d.srcPalNumEntries then readPalette d s1
          else Except.ok (d, s1)) with
      | error e => rw [hpal] at hk; exact absurd hk (by simp)
      | ok pr2 =>
        obtain ⟨d2, s2⟩ := pr2
        rw [hpal] at hk
        simp only [] at hk
        cases hgap : readGap d2 s2 with
        | error e => rw [hgap] at hk; exact absurd hk (by simp)
        | ok s3 =>
          rw [hgap] at hk
          simp only [] at hk
          cases hbits : readBits d2
              (if d2.dstHasPalette = true then
                Img.paletted (newPaletted d2.width d2.height d2.dstPalette)
              else Img.nrgba (newNRGBA d2.width d2.height)) s3 with
          | error e =>
            rw [show (if d2.dstHasPalette then
                Img.paletted (newPaletted d2.width d2.height d2.dstPalette)
              else Img.nrgba (newNRGBA d2.width d2.height)) =
              (if d2.dstHasPalette = true then
                Img.paletted (newPaletted d2.width d2.height d2.dstPalette)
              else Img.nrgba (newNRGBA d2.width d2.height)) from rfl, hbits] at hk
            exact absurd hk (by simp)
          | ok pr3 =>
            obtain ⟨img2, s4⟩ := pr3
            rw [show (if d2.dstHasPalette then
                Img.paletted (newPaletted d2.width d2.height d2.dstPalette)
              else Img.nrgba (newNRGBA d2.width d2.height)) =
              (if d2.dstHasPalette = true then
                Img.paletted (newPaletted d2.width d2.height d2.dstPalette)
              else Img.nrgba (newNRGBA d2.width d2.height)) from rfl, hbits] at hk
            simp only [Except.ok.injEq] at hk
            refine ⟨d, d2, s1, s2, s3, s4, _, rfl, hcomp, hbc, hpal, rfl, hgap, ?_⟩
            rw [← hk]
            exact hbits
    · rw [if_pos hbc] at hk
      exact absurd hk (by simp)

theorem DecodeConfig_ok_elim {s : List Nat} {cfg : Config}
    (hk : DecodeConfig s = Except.ok cfg) :
    ∃ (dd : Decoder) (s1 : List Nat), readHeaders {} true s = Except.ok (dd, s1) ∧
      cfg = { width := dd.width, height := dd.height, colorModelIndexed := dd.dstHasPalette } := by
  rw [DecodeConfig] at hk
  cases hrh : readHeaders {} true s with
  | error e => rw [hrh] at hk; exact absurd hk (by simp)
  | ok pr =>
    obtain ⟨dd, s1⟩ := pr
    rw [hrh] at hk
    simp only [Except.ok.injEq] at hk
    exact ⟨dd, s1, rfl, hk.symm⟩

theorem readHeaders_ok_fields {d0 : Decoder} {co : Bool} {s : List Nat}
    {dd : Decoder} {s1 : List Nat}
    (hk : readHeaders d0 co s = Except.ok (dd, s1)) :
    1 ≤ dd.width ∧ 1 ≤ dd.height ∧
    dd.srcPalSizeInBytes = dd.srcPalNumEntries * dd.srcPalBytesPerEntry ∧
    (d0.dstHasPalette = false →
      (dd.dstHasPalette = true ↔ (1 ≤ dd.bitCount ∧ dd.bitCount ≤ 8))) ∧
    (co = false → dd.srcPalBytesPerEntry = 4 ∧
      ((1 ≤ dd.bitCount ∧ dd.bitCount ≤ 8) → 1 ≤ dd.srcPalNumEntries)) := by
  obtain ⟨d2, h18, hb0, hb1, hhs, hfn, h36, hs1, hdd⟩ := readHeaders_ok_elim hk
  obtain ⟨hW, hH, hT, hB, hHS, hDP, hBF, hw1, hh1⟩ := dih40_ok_common hfn
  subst hdd
  have hextras : co = false → d2.srcPalBytesPerEntry = 4 ∧
      ((1 ≤ d2.bitCount ∧ d2.bitCount ≤ 8) → 1 ≤ d2.srcPalNumEntries) := by
    intro hco
    subst hco
    obtain ⟨_, hbpe, hnum, _, _, _⟩ := dih40_full_ok_extras hfn
    refine ⟨hbpe, ?_⟩
    intro hrange
    rw [hnum, if_pos (by rw [← hB]; exact hrange)]
    by_cases hcu0 : getDWORD ((List.replicate 4 0 ++ (s.drop 18).take 36).drop 32) = 0
    · rw [if_pos hcu0]
      exact Nat.one_le_two_pow
    · rw [if_neg hcu0]
      omega
  by_cases hbc : 1 ≤ d2.bitCount ∧ d2.bitCount ≤ 8
  · rw [if_pos hbc]
    refine ⟨by simpa using hw1, by simpa using hh1, by simp, ?_, ?_⟩
    · intro _
      simp only []
      simpa using hbc
    · intro hco
      obtain ⟨e1, e2⟩ := hextras hco
      exact ⟨by simpa using e1, by intro hr; simpa using e2 (by simpa using hr)⟩
  · rw [if_neg hbc]
    refine ⟨by simpa using hw1, by simpa using hh1, by simp, ?_, ?_⟩
    · intro h0
      have hDP2 : d2.dstHasPalette = d0.dstHasPalette := hDP
      constructor
      · intro hdp
        have h1 : d2.dstHasPalette = true := hdp
        rw [hDP2, h0] at h1
        exact absurd h1 (by simp)
      · intro hr
        exact absurd (by simpa using hr) hbc
    · intro hco
      obtain ⟨e1, e2⟩ := hextras hco
      exact ⟨by simpa using e1, by intro hr; simpa using e2 (by simpa using hr)⟩

/-! ### Claim C2: width and height validation -/

/-- C2: the 40-byte header parser reads width and height as little-endian
signed 32-bit fields (`toInt32 ∘ getDWORD` at offsets 4 and 8 of the
header buffer); a width below 1 fails with a format error carrying the
value; a negative height sets `isTopDown` and is negated; a normalized
height below 1 fails with a format error carrying the value; and every
successful `Decode` or `DecodeConfig` yields width ≥ 1 and height ≥ 1. -/
theorem dims_spec :
    (∀ (d : Decoder) (h : List Nat) (co : Bool),
      (toInt32 (getDWORD (h.drop 4)) < 1 →
        decodeInfoHeader40 d h co = Except.error
          (BmpErr.format ("bad width " ++ toString (toInt32 (getDWORD (h.drop 4)))))) ∧
      (1 ≤ toInt32 (getDWORD (h.drop 4)) →
        (if toInt32 (getDWORD (h.drop 8)) < 0 then -toInt32 (getDWORD (h.drop 8))
          else toInt32 (getDWORD (h.drop 8))) < 1 →
        decodeInfoHeader40 d h co = Except.error
          (BmpErr.format ("bad height " ++ toString
            (if toInt32 (getDWORD (h.drop 8)) < 0 then -toInt32 (getDWORD (h.drop 8))
              else toInt32 (getDWORD (h.drop 8)))))) ∧
      (∀ d2, decodeInfoHeader40 d h co = Except.ok d2 →
        d2.width = toInt32 (getDWORD (h.drop 4)) ∧ 1 ≤ d2.width ∧
        d2.height = (if toInt32 (getDWORD (h.drop 8)) < 0 then -toInt32 (getDWORD (h.drop 8))
          else toInt32 (getDWORD (h.drop 8))) ∧ 1 ≤ d2.height ∧
        (toInt32 (getDWORD (h.drop 8)) < 0 → d2.isTopDown = true))) ∧
    (∀ (s : List Nat) (img : Img), Decode s = Except.ok img →
      1 ≤ img.widthOf ∧ 1 ≤ img.heightOf) ∧
    (∀ (s : List Nat) (cfg : Config), DecodeConfig s = Except.ok cfg →
      1 ≤ cfg.width ∧ 1 ≤ cfg.height) := by
  refine ⟨fun d h co => ⟨fun hw => dih40_bad_width hw, fun hw hht => dih40_bad_height hw hht,
    fun d2 hk => ?_⟩, ?_, ?_⟩
  · obtain ⟨hW, hH, hT, _, _, _, _, hw1, hh1⟩ := dih40_ok_common hk
    refine ⟨hW, hw1, hH, hh1, fun hneg => ?_⟩
    rw [hT, if_pos hneg]
  · intro s img hk
    obtain ⟨d, d2, s1, s2, s3, s4, img0, hrh, hcomp, hbc, hpal, himg0, hgap, hbits⟩ :=
      Decode_ok_elim hk
    obtain ⟨hw1, hh1, _, _, _⟩ := readHeaders_ok_fields hrh
    have hd2 : d2.width = d.width ∧ d2.height = d.height := by
      by_cases h0 : 0 < d.srcPalNumEntries
      · rw [if_pos h0] at hpal
        obtain ⟨_, _, hw2, hh2, _⟩ := readPalette_ok_elim hpal
        exact ⟨hw2, hh2⟩
      · rw [if_neg h0] at hpal
        simp only [Except.ok.injEq, Prod.mk.injEq] at hpal
        rw [← hpal.1]
        exact ⟨rfl, rfl⟩
    obtain ⟨p1, p2, _, _, _, _⟩ := readBits_preserves hbits
    have h0w : img0.widthOf = d2.width := by
      subst himg0
      by_cases hdp : d2.dstHasPalette = true <;>
        simp [hdp, Img.widthOf, newPaletted, newNRGBA]
    have h0h : img0.heightOf = d2.height := by
      subst himg0
      by_cases hdp : d2.dstHasPalette = true <;>
        simp [hdp, Img.heightOf, newPaletted, newNRGBA]
    constructor
    · rw [p1, h0w, hd2.1]; exact hw1
    · rw [p2, h0h, hd2.2]; exact hh1
  · intro s cfg hk
    obtain ⟨dd, s1, hrh, hcfg⟩ := DecodeConfig_ok_elim hk
    obtain ⟨hw1, hh1, _, _, _⟩ := readHeaders_ok_fields hrh
    rw [hcfg]
    exact ⟨hw1, hh1⟩




/-- Witness for `dims_spec`: a zero width is rejected with the format
error, and a concrete decode and config read both yield dimensions ≥ 1. -/
theorem dims_spec_witness :
    decodeInfoHeader40 {} c2badw false =
      Except.error (BmpErr.format ("bad width " ++
        toString (toInt32 (getDWORD (c2badw.drop 4))))) ∧
    (1 ≤ (Img.paletted goodImgP).widthOf ∧ 1 ≤ (Img.paletted goodImgP).heightOf) ∧
    (1 ≤ (2 : Int) ∧ 1 ≤ (2 : Int)) :=
  ⟨(dims_spec.1 {} c2badw false).1 (by decide),
   dims_spec.2.1 goodFile (Img.paletted goodImgP) (by decide),
   dims_spec.2.2 goodFile { width := 2, height := 2, colorModelIndexed := true } (by decide)⟩

/-! ### Claim C8: `DecodeConfig` agrees with `Decode` -/

theorem readHeaders_true_of_false {d0 : Decoder} {s : List Nat} {dd : Decoder}
    {s1 : List Nat} (hk : readHeaders d0 false s = Except.ok (dd, s1)) :
    ∃ dc : Decoder, readHeaders d0 true s = Except.ok (dc, s1) ∧
      dc.width = dd.width ∧ dc.height = dd.height ∧
      dc.dstHasPalette = dd.dstHasPalette := by
  obtain ⟨d2, h18, hb0, hb1, hhs, hfn, h36, hs1, hdd⟩ := readHeaders_ok_elim hk
  have hcfg := dih40_true_of_false_ok hfn
  have hintro := @readHeaders_ok_intro d0 true _ _ h18 hb0 hb1 hhs h36 hcfg
  subst hdd
  subst hs1
  have hDP : d2.dstHasPalette = d0.dstHasPalette := (dih40_ok_common hfn).2.2.2.2.2.1
  refine ⟨_, hintro, ?_, ?_, ?_⟩ <;>
    by_cases hbc : 1 ≤ d2.bitCount ∧ d2.bitCount ≤ 8 <;>
    simp [hbc, hDP]

/-- C8: whenever `Decode` succeeds, `DecodeConfig` on the same bytes also
succeeds, reporting exactly the decoded image's width and height, and an
indexed color model precisely when the decoded image is paletted. -/
theorem decodeConfig_refines_decode (s : List Nat) (img : Img)
    (hk : Decode s = Except.ok img) :
    DecodeConfig s = Except.ok
      { width := img.widthOf, height := img.heightOf, colorModelIndexed := img.isIndexed } := by
  obtain ⟨d, d2, s1, s2, s3, s4, img0, hrh, hcomp, hbc, hpal, himg0, hgap, hbits⟩ :=
    Decode_ok_elim hk
  obtain ⟨dc, hrc, hw, hh, hp⟩ := readHeaders_true_of_false hrh
  rw [DecodeConfig, hrc]
  have hd2 : d2.width = d.width ∧ d2.height = d.height ∧
      d2.dstHasPalette = d.dstHasPalette := by
    by_cases h0 : 0 < d.srcPalNumEntries
    · rw [if_pos h0] at hpal
      obtain ⟨_, _, hw2, hh2, _, hdp2, _⟩ := readPalette_ok_elim hpal
      exact ⟨hw2, hh2, hdp2⟩
    · rw [if_neg h0] at hpal
      simp only [Except.ok.injEq, Prod.mk.injEq] at hpal
      rw [← hpal.1]
      exact ⟨rfl, rfl, rfl⟩
  obtain ⟨p1, p2, p3, _, _, _⟩ := readBits_preserves hbits
  have h0w : img0.widthOf = d2.width := by
    subst himg0
    by_cases hdp : d2.dstHasPalette = true <;>
      simp [hdp, Img.widthOf, newPaletted, newNRGBA]
  have h0h : img0.heightOf = d2.height := by
    subst himg0
    by_cases hdp : d2.dstHasPalette = true <;>
      simp [hdp, Img.heightOf, newPaletted, newNRGBA]
  have h0i : img0.isIndexed = d2.dstHasPalette := by
    subst himg0
    by_cases hdp : d2.dstHasPalette = true <;>
      simp [hdp, Img.isIndexed, newPaletted, newNRGBA]
  simp only [Except.ok.injEq, Config.mk.injEq]
  refine ⟨?_, ?_, ?_⟩
  · rw [p1, h0w, hd2.1, hw]
  · rw [p2, h0h, hd2.2.1, hh]
  · rw [p3, h0i, hd2.2.2, hp]

/-- Witness for `decodeConfig_refines_decode` at the concrete decodable
file `goodFile`. -/
theorem decodeConfig_refines_decode_witness :
    DecodeConfig goodFile = Except.ok
      { width := (Img.paletted goodImgP).widthOf,
        height := (Img.paletted goodImgP).heightOf,
        colorModelIndexed := (Img.paletted goodImgP).isIndexed } :=
  decodeConfig_refines_decode goodFile (Img.paletted goodImgP) (by decide)

/-! ### Claim C4: palette byte reordering -/



/-- C4: on a paletted decode with source palette count `n > 0`, the
destination palette has length `min n 256`, and entry `i` is built from
source bytes `(B,G,R,reserved)` at offset `4*i` reordered to
`(R,G,B,alpha=255)` — the reserved byte is discarded and alpha forced to
255; in particular a source entry `(10,20,30,X)` yields `(30,20,10,255)`
for every value of `X`. -/
theorem palette_reorder_spec :
    (∀ (d : Decoder) (s : List Nat), d.dstHasPalette = true →
      d.srcPalBytesPerEntry = 4 → d.srcPalSizeInBytes = d.srcPalNumEntries * 4 →
      0 < d.srcPalNumEntries → d.srcPalSizeInBytes ≤ s.length →
      ∃ d2, readPalette d s = Except.ok (d2, s.drop d.srcPalSizeInBytes) ∧
        d2.dstPalette.length = min d.srcPalNumEntries 256 ∧
        ∀ i < min d.srcPalNumEntries 256,
          d2.dstPalette.getD i (RGBA.mk 0 0 0 0) =
            RGBA.mk (s.getD (i * 4 + 2) 0) (s.getD (i * 4 + 1) 0)
              (s.getD (i * 4) 0) 255) ∧
    (∀ x : Nat, ∃ d2, readPalette palD [10, 20, 30, x] = Except.ok (d2, []) ∧
      d2.dstPalette = [RGBA.mk 30 20 10 255]) := by
  constructor
  · intro d s hdp hbpe hsz hpos hlen
    simp only [readPalette, readFull_of_le hlen, hdp]
    rw [if_neg (by simp)]
    refine ⟨_, rfl, ?_, ?_⟩
    · simp only [List.length_map, List.length_range]
      split <;> omega
    · intro i hi
      have hin : i < (if 256 < d.srcPalNumEntries then 256 else d.srcPalNumEntries) := by
        split <;> omega
      have hget : (List.range (if 256 < d.srcPalNumEntries then 256
          else d.srcPalNumEntries))[i]? = some i := by
        rw [List.getElem?_range hin]
      have hn : i < d.srcPalNumEntries := by
        by_cases hc : 256 < d.srcPalNumEntries
        · rw [if_pos hc] at hin; omega
        · rw [if_neg hc] at hin; omega
      simp only [List.getD_eq_getElem?_getD, List.getElem?_map, hget, Option.map_some',
        Option.getD_some, hbpe]
      have hidx : ∀ k, k < 4 →
          (s.take d.srcPalSizeInBytes)[i * 4 + k]? = s[i * 4 + k]? := by
        intro k hk
        exact List.getElem?_take_of_lt (by omega)
      rw [hidx 2 (by omega), hidx 1 (by omega), hidx 0 (by omega)]
      norm_num
  · intro x
    exact ⟨_, rfl, rfl⟩

/-- Witness for `palette_reorder_spec`: applying its general part to the
single-entry decoder and the bytes (10, 20, 30, 99). -/
theorem palette_reorder_spec_witness :
    ∃ d2, readPalette palD [10, 20, 30, 99] =
        Except.ok (d2, ([10, 20, 30, 99] : List Nat).drop palD.srcPalSizeInBytes) ∧
      d2.dstPalette.length = min palD.srcPalNumEntries 256 ∧
      ∀ i < min palD.srcPalNumEntries 256,
        d2.dstPalette.getD i (RGBA.mk 0 0 0 0) =
          RGBA.mk (([10, 20, 30, 99] : List Nat).getD (i * 4 + 2) 0)
            (([10, 20, 30, 99] : List Nat).getD (i * 4 + 1) 0)
            (([10, 20, 30, 99] : List Nat).getD (i * 4) 0) 255 :=
  palette_reorder_spec.1 palD [10, 20, 30, 99] (by decide) (by decide) (by decide)
    (by decide) (by decide)

/-! ### Claim C9: palette indices are bounded -/

theorem decodeRowPalLoop_err (pv : List Nat → Nat → Nat) (d : Decoder)
    (buf : List Nat) (j : Nat) :
    ∀ (l : List Nat) (p : Paletted), (∃ i ∈ l, d.dstPalNumEntries ≤ pv buf i) →
      decodeRowPalLoop pv d buf j p l =
        Except.error (BmpErr.format "palette index out of range") := by
  intro l
  induction l with
  | nil => intro p h; simp at h
  | cons i rest ih =>
    intro p h
    rw [decodeRowPalLoop]
    by_cases hc : d.dstPalNumEntries ≤ pv buf i
    · rw [if_pos hc]
    · rw [if_neg hc]
      apply ih
      obtain ⟨i', hi', hb⟩ := h
      rcases List.mem_cons.mp hi' with h1 | h1
      · exact absurd (h1 ▸ hb) hc
      · exact ⟨i', h1, hb⟩

theorem decodeRowPalLoop_bound (pv : List Nat → Nat → Nat) (d : Decoder)
    (buf : List Nat) (j : Nat) (B : Nat) (hB : d.dstPalNumEntries ≤ B) :
    ∀ (l : List Nat) (p q : Paletted), decodeRowPalLoop pv d buf j p l = Except.ok q →
      (∀ v ∈ p.pix, v < B) → ∀ v ∈ q.pix, v < B := by
  intro l
  induction l with
  | nil =>
    intro p q hk hp
    rw [decodeRowPalLoop] at hk
    have := Except.ok.inj hk
    subst this
    exact hp
  | cons i rest ih =>
    intro p q hk hp
    rw [decodeRowPalLoop] at hk
    by_cases hc : d.dstPalNumEntries ≤ pv buf i
    · rw [if_pos hc] at hk; exact absurd hk (by simp)
    · rw [if_neg hc] at hk
      refine ih _ q hk ?_
      intro v hv
      rcases List.mem_or_eq_of_mem_set hv with h1 | h1
      · exact hp v h1
      · omega

theorem rowFunc_palette_bound {d : Decoder}
    {f : Decoder → List Nat → Img → Nat → Except BmpErr Img}
    (hf : rowFuncFor d.bitCount = some f) {buf : List Nat} {img : Img} {j : Nat}
    {img2 : Img} {B : Nat} (hB : d.dstPalNumEntries ≤ B)
    (hk : f d buf img j = Except.ok img2)
    (hinv : ∀ p, img = Img.paletted p → ∀ v ∈ p.pix, v < B) :
    ∀ p2, img2 = Img.paletted p2 → ∀ v ∈ p2.pix, v < B := by
  have palCase : ∀ pv, decodeRowPal pv d buf img j = Except.ok img2 →
      ∀ p2, img2 = Img.paletted p2 → ∀ v ∈ p2.pix, v < B := by
    intro pv hkp p2 h2
    cases img with
    | paletted p =>
      rw [decodeRowPal] at hkp
      cases hq : decodeRowPalLoop pv d buf j p (List.range d.width.toNat) with
      | error e => rw [hq] at hkp; exact absurd hkp (by simp [Except.map])
      | ok q =>
        rw [hq] at hkp
        simp only [Except.map] at hkp
        have h3 := Except.ok.inj hkp
        rw [← h3] at h2
        have h4 := Img.paletted.inj h2
        rw [← h4]
        exact decodeRowPalLoop_bound pv d buf j B hB _ p q hq (hinv p rfl)
    | nrgba p =>
      rw [decodeRowPal] at hkp
      exact absurd hkp (by simp)
  unfold rowFuncFor at hf
  split at hf
  · cases Option.some.inj hf; exact palCase pixVal1 hk
  · cases Option.some.inj hf; exact palCase pixVal4 hk
  · cases Option.some.inj hf; exact palCase pixVal8 hk
  · cases Option.some.inj hf
    intro p2 h2
    cases img with
    | paletted p => rw [decodeRow_24] at hk; exact absurd hk (by simp)
    | nrgba p =>
      rw [decodeRow_24] at hk
      have := Except.ok.inj hk
      rw [← this] at h2
      exact absurd h2 (by simp)
  · exact absurd hf (by simp)

theorem readBitsLoop_palette_bound {d : Decoder}
    {f : Decoder → List Nat → Img → Nat → Except BmpErr Img}
    (hf : rowFuncFor d.bitCount = some f) {B : Nat} (hB : d.dstPalNumEntries ≤ B) :
    ∀ (rows : List Nat) (img : Img) (s : List Nat) (img2 : Img) (s2 : List Nat),
      readBitsLoop d f img s rows = Except.ok (img2, s2) →
      (∀ p, img = Img.paletted p → ∀ v ∈ p.pix, v < B) →
      ∀ p2, img2 = Img.paletted p2 → ∀ v ∈ p2.pix, v < B := by
  intro rows
  induction rows with
  | nil =>
    intro img s img2 s2 hk hinv
    rw [readBitsLoop] at hk
    simp only [Except.ok.injEq, Prod.mk.injEq] at hk
    rw [← hk.1]
    exact hinv
  | cons r rest ih =>
    intro img s img2 s2 hk hinv
    simp only [readBitsLoop] at hk
    cases hrf : readFull (srcRowStride d) s with
    | error e => rw [hrf] at hk; exact absurd hk (by simp)
    | ok pr =>
      obtain ⟨buf, s'⟩ := pr
      rw [hrf] at hk
      simp only [] at hk
      cases hfd : f d buf img (if d.isTopDown then r else d.height.toNat - r - 1) with
      | error e => rw [hfd] at hk; exact absurd hk (by simp)
      | ok imgm =>
        rw [hfd] at hk
        exact ih imgm s' img2 s2 hk (rowFunc_palette_bound hf hB hfd hinv)

theorem readBits_palette_bound {d : Decoder} {img : Img} {s : List Nat}
    {img2 : Img} {s2 : List Nat} {B : Nat} (hB : d.dstPalNumEntries ≤ B)
    (hk : readBits d img s = Except.ok (img2, s2))
    (hinv : ∀ p, img = Img.paletted p → ∀ v ∈ p.pix, v < B) :
    ∀ p2, img2 = Img.paletted p2 → ∀ v ∈ p2.pix, v < B := by
  rw [readBits] at hk
  cases hf : rowFuncFor d.bitCount with
  | none =>
    rw [hf] at hk
    simp only [Except.ok.injEq, Prod.mk.injEq] at hk
    rw [← hk.1]
    exact hinv
  | some f =>
    rw [hf] at hk
    exact readBitsLoop_palette_bound hf hB _ img s img2 s2 hk hinv

/-- C9: every paletted image a successful `Decode` returns stores only
pixel-index values strictly below its palette's length; and each of the
paletted row decoders aborts with the format error "palette index out of
range" on any row containing an index at or above
`dstPalNumEntries` — the index is never clamped. -/
theorem palette_index_bound_spec :
    (∀ (s : List Nat) (p : Paletted), Decode s = Except.ok (Img.paletted p) →
      ∀ v ∈ p.pix, v < p.palette.length) ∧
    (∀ (d : Decoder) (buf : List Nat) (p : Paletted) (j : Nat),
      (∃ i < d.width.toNat, d.dstPalNumEntries ≤ pixVal1 buf i) →
      decodeRow_1 d buf (Img.paletted p) j =
        Except.error (BmpErr.format "palette index out of range")) ∧
    (∀ (d : Decoder) (buf : List Nat) (p : Paletted) (j : Nat),
      (∃ i < d.width.toNat, d.dstPalNumEntries ≤ pixVal4 buf i) →
      decodeRow_4 d buf (Img.paletted p) j =
        Except.error (BmpErr.format "palette index out of range")) ∧
    (∀ (d : Decoder) (buf : List Nat) (p : Paletted) (j : Nat),
      (∃ i < d.width.toNat, d.dstPalNumEntries ≤ pixVal8 buf i) →
      decodeRow_8 d buf (Img.paletted p) j =
        Except.error (BmpErr.format "palette index out of range")) := by
  have errCase : ∀ (pv : List Nat → Nat → Nat) (d : Decoder) (buf : List Nat)
      (p : Paletted) (j : Nat), (∃ i < d.width.toNat, d.dstPalNumEntries ≤ pv buf i) →
      decodeRowPal pv d buf (Img.paletted p) j =
        Except.error (BmpErr.format "palette index out of range") := by
    intro pv d buf p j ⟨i, hi, hb⟩
    rw [decodeRowPal, decodeRowPalLoop_err pv d buf j _ p ⟨i, List.mem_range.mpr hi, hb⟩]
    rfl
  refine ⟨?_, fun d buf p j h => errCase pixVal1 d buf p j h,
    fun d buf p j h => errCase pixVal4 d buf p j h,
    fun d buf p j h => errCase pixVal8 d buf p j h⟩
  intro s p hk
  obtain ⟨d, d2, s1, s2, s3, s4, img0, hrh, hcomp, hbc, hpal, himg0, hgap, hbits⟩ :=
    Decode_ok_elim hk
  obtain ⟨_, _, _, hdp_iff, hfull⟩ := readHeaders_ok_fields hrh
  -- the decoded image is paletted, so the allocation was paletted
  obtain ⟨_, _, pres3, pres4, _, _⟩ := readBits_preserves hbits
  have himg0pal : img0.isIndexed = true := by
    rw [← pres3]
    simp [Img.isIndexed]
  have hd2dp : d2.dstHasPalette = true := by
    by_cases hdp : d2.dstHasPalette = true
    · exact hdp
    · rw [himg0, if_neg hdp] at himg0pal
      exact absurd himg0pal (by simp [Img.isIndexed])
  have hddp : d.dstHasPalette = true ∧ d2.dstPalNumEntries ≤ d2.dstPalette.length ∧
      1 ≤ d2.dstPalNumEntries := by
    by_cases h0 : 0 < d.srcPalNumEntries
    · rw [if_pos h0] at hpal
      obtain ⟨_, _, _, _, _, hdp2, _, _, _, _, _, hnum2, _, htrue, _⟩ :=
        readPalette_ok_elim hpal
      have hddp1 : d.dstHasPalette = true := by rw [← hdp2]; exact hd2dp
      obtain ⟨hn, hpalette⟩ := htrue hddp1
      refine ⟨hddp1, ?_, ?_⟩
      · rw [hn, hpalette]
        simp
      · rw [hn]
        split <;> omega
    · rw [if_neg h0] at hpal
      simp only [Except.ok.injEq, Prod.mk.injEq] at hpal
      have hdeq : d2 = d := hpal.1.symm
      subst hdeq
      have := (hdp_iff (by rfl)).mp hd2dp
      have := (hfull rfl).2 this
      omega
  have hpixlen : img0 = Img.paletted (newPaletted d2.width d2.height d2.dstPalette) := by
    rw [himg0, if_pos hd2dp]
  have hinv : ∀ q, img0 = Img.paletted q → ∀ v ∈ q.pix, v < d2.dstPalette.length := by
    intro q hq v hv
    rw [hpixlen] at hq
    have := Img.paletted.inj hq
    rw [← this] at hv
    simp only [newPaletted] at hv
    have := List.eq_of_mem_replicate hv
    omega
  have hbound := readBits_palette_bound hddp.2.1 hbits hinv
  have hpal_eq : p.palette = d2.dstPalette := by
    have h1 : (Img.paletted p).paletteOf =
        (Img.paletted (newPaletted d2.width d2.height d2.dstPalette)).paletteOf := by
      rw [pres4, hpixlen]
    simpa [Img.paletteOf, newPaletted] using h1
  intro v hv
  rw [hpal_eq]
  exact hbound p rfl v hv

/-- Witness for `palette_index_bound_spec`: the concrete decode of
`goodFile`, and a concrete out-of-range row for `decodeRow_8`. -/
theorem palette_index_bound_spec_witness :
    (∀ v ∈ goodImgP.pix, v < goodImgP.palette.length) ∧
    decodeRow_8 rowD [7] (Img.paletted goodImgP) 0 =
      Except.error (BmpErr.format "palette index out of range") :=
  ⟨palette_index_bound_spec.1 goodFile goodImgP (by decide),
   palette_index_bound_spec.2.2.2 rowD [7] goodImgP 0 ⟨0, by decide, by decide⟩⟩

/-! ### Claim C3: row placement.  First, splice forms of the row loops. -/


theorem take_set_succ {l : List Nat} {m : Nat} (hm : m < l.length) (v : Nat) :
    (l.set m v).take (m + 1) = l.take m ++ [v] := by
  rw [List.set_eq_take_cons_drop v hm,
    show m + 1 = (l.take m).length + 1 by rw [List.length_take]; omega,
    List.take_append]
  rfl

theorem setSeq_eq : ∀ (vs : List Nat) (l : List Nat) (m : Nat), m + vs.length ≤ l.length →
    setSeq l m vs = l.take m ++ vs ++ l.drop (m + vs.length) := by
  intro vs
  induction vs with
  | nil =>
    intro l m h
    simp [setSeq]
  | cons v rest ih =>
    intro l m h
    simp only [List.length_cons] at h
    rw [setSeq, ih (l.set m v) (m + 1) (by rw [List.length_set]; omega)]
    rw [take_set_succ (by omega) v, List.drop_set_of_lt _ _ (by omega)]
    simp only [List.length_cons]
    rw [show m + (rest.length + 1) = m + 1 + rest.length by omega]
    simp [List.append_assoc]

theorem decodeRowPalLoop_char (pv : List Nat → Nat → Nat) (d : Decoder)
    (buf : List Nat) (j : Nat) :
    ∀ (n i0 : Nat) (p : Paletted), j * p.stride + i0 + n ≤ p.pix.length →
      decodeRowPalLoop pv d buf j p (List.range' i0 n) =
        (if (List.range' i0 n).all (fun i => pv buf i < d.dstPalNumEntries) then
          Except.ok { p with pix := p.pix.take (j * p.stride + i0) ++
            (List.range' i0 n).map (pv buf) ++ p.pix.drop (j * p.stride + i0 + n) }
        else Except.error (BmpErr.format "palette index out of range")) := by
  intro n
  induction n with
  | zero =>
    intro i0 p hb
    simp [decodeRowPalLoop]
  | succ n ih =>
    intro i0 p hb
    rw [List.range'_succ, decodeRowPalLoop]
    by_cases hc : d.dstPalNumEntries ≤ pv buf i0
    · have hcond : ¬ ((i0 :: List.range' (i0 + 1) n).all
          (fun i => pv buf i < d.dstPalNumEntries)) = true := by
        simp only [List.all_cons, Bool.and_eq_true, decide_eq_true_eq]
        intro hcontr
        exact absurd hcontr.1 (by omega)
      rw [if_pos hc, if_neg hcond]
    · rw [if_neg hc]
      rw [ih (i0 + 1) { p with pix := p.pix.set (j * p.stride + i0) (pv buf i0) }
        (by simp only [List.length_set]; omega)]
      by_cases hall : (List.range' (i0 + 1) n).all
          (fun i => pv buf i < d.dstPalNumEntries) = true
      · have hcond : ((i0 :: List.range' (i0 + 1) n).all
            (fun i => pv buf i < d.dstPalNumEntries)) = true := by
          simp only [List.all_cons, hall, Bool.and_true, decide_eq_true_eq]
          omega
        rw [if_pos hall, if_pos hcond]
        simp only [Except.ok.injEq, Paletted.mk.injEq, and_true, true_and]
        have hm : j * p.stride + i0 < p.pix.length := by omega
        rw [show j * p.stride + (i0 + 1) = j * p.stride + i0 + 1 by omega]
        rw [take_set_succ hm, List.drop_set_of_lt _ _ (by omega)]
        rw [List.map_cons]
        rw [show j * p.stride + i0 + 1 + n = j * p.stride + i0 + (n + 1) by omega]
        simp [List.append_assoc]
      · have hcond : ¬ ((i0 :: List.range' (i0 + 1) n).all
            (fun i => pv buf i < d.dstPalNumEntries)) = true := by
          simp only [List.all_cons, Bool.and_eq_true, decide_eq_true_eq, not_and]
          intro _
          exact hall
        rw [if_neg hall, if_neg hcond]

theorem decodeRow24Loop_char (buf : List Nat) (j : Nat) :
    ∀ (n i0 : Nat) (p : NRGBA), j * p.stride + 4 * i0 + 4 * n ≤ p.pix.length →
      decodeRow24Loop buf j p (List.range' i0 n) =
        { p with pix := p.pix.take (j * p.stride + 4 * i0) ++
          (List.range' i0 n).flatMap (fun i => [buf.getD (i * 3 + 2) 0,
            buf.getD (i * 3 + 1) 0, buf.getD (i * 3 + 0) 0, 255]) ++
          p.pix.drop (j * p.stride + 4 * i0 + 4 * n) } := by
  intro n
  induction n with
  | zero =>
    intro i0 p hb
    simp [decodeRow24Loop]
  | succ n ih =>
    intro i0 p hb
    rw [List.range'_succ, decodeRow24Loop]
    have hquad : ((((p.pix.set (j * p.stride + i0 * 4 + 0) (buf.getD (i0 * 3 + 2) 0)).set
        (j * p.stride + i0 * 4 + 1) (buf.getD (i0 * 3 + 1) 0)).set
        (j * p.stride + i0 * 4 + 2) (buf.getD (i0 * 3 + 0) 0)).set
        (j * p.stride + i0 * 4 + 3) 255) =
        setSeq p.pix (j * p.stride + i0 * 4) [buf.getD (i0 * 3 + 2) 0,
          buf.getD (i0 * 3 + 1) 0, buf.getD (i0 * 3 + 0) 0, 255] := rfl
    rw [hquad, setSeq_eq _ _ _ (by simp only [List.length_cons, List.length_nil]; omega)]
    rw [ih (i0 + 1) _ (by
      simp only [List.length_append, List.length_take, List.length_drop,
        List.length_cons, List.length_nil]
      omega)]
    simp only [NRGBA.mk.injEq, and_true, true_and]
    have hlen4 : ((p.pix.take (j * p.stride + i0 * 4) ++ [buf.getD (i0 * 3 + 2) 0,
        buf.getD (i0 * 3 + 1) 0, buf.getD (i0 * 3 + 0) 0, 255]).length) =
        j * p.stride + 4 * i0 + 4 := by
      simp only [List.length_append, List.length_take, List.length_cons, List.length_nil]
      omega
    rw [List.take_left' (by rw [hlen4]; omega)]
    rw [show j * p.stride + 4 * (i0 + 1) + 4 * n =
      (p.pix.take (j * p.stride + i0 * 4) ++ [buf.getD (i0 * 3 + 2) 0,
        buf.getD (i0 * 3 + 1) 0, buf.getD (i0 * 3 + 0) 0, 255]).length + 4 * n by
        rw [hlen4]; omega]
    rw [List.drop_append, List.drop_drop]
    rw [List.flatMap_cons]
    simp only [Nat.mul_comm i0 4, List.length_cons, List.length_nil]
    rw [show j * p.stride + 4 * i0 + (0 + 1 + 1 + 1 + 1) + 4 * n =
      j * p.stride + 4 * i0 + 4 * (n + 1) by omega]
    simp [List.append_assoc]




theorem rowPayload_length_of_good {d : Decoder} {img : Img} (hg : goodImg d img)
    (buf : List Nat) : (rowPayload d buf).length = img.strideOf := by
  rcases hg with ⟨hbc, _, hst⟩ | ⟨hbc, _, hst⟩
  · rcases hbc with h | h | h
    · rw [show rowPayload d buf = (List.range d.width.toNat).map (pixVal1 buf) by
        unfold rowPayload; rw [h]]
      simp [hst]
    · rw [show rowPayload d buf = (List.range d.width.toNat).map (pixVal4 buf) by
        unfold rowPayload; rw [h]]
      simp [hst]
    · rw [show rowPayload d buf = (List.range d.width.toNat).map (pixVal8 buf) by
        unfold rowPayload; rw [h]]
      simp [hst]
  · rw [show rowPayload d buf = (List.range d.width.toNat).flatMap
      (fun i => [buf.getD (i * 3 + 2) 0, buf.getD (i * 3 + 1) 0,
        buf.getD (i * 3 + 0) 0, 255]) by unfold rowPayload; rw [hbc]]
    rw [hst]
    induction d.width.toNat with
    | zero => simp
    | succ n ihn =>
      rw [List.range_succ, List.flatMap_append, List.length_append, ihn]
      simp [Nat.mul_succ]

theorem rowFunc_char {d : Decoder}
    {f : Decoder → List Nat → Img → Nat → Except BmpErr Img}
    (hf : rowFuncFor d.bitCount = some f) {img : Img} (hg : goodImg d img)
    (buf : List Nat) (j : Nat)
    (hb : j * img.strideOf + img.strideOf ≤ img.pixOf.length) :
    f d buf img j =
      (if rowOK d buf then
        Except.ok (img.withPix (img.pixOf.take (j * img.strideOf) ++ rowPayload d buf ++
          img.pixOf.drop (j * img.strideOf + img.strideOf)))
      else Except.error (BmpErr.format "palette index out of range")) := by
  have palCase : ∀ (pv : List Nat → Nat → Nat) (p : Paletted),
      img = Img.paletted p →
      rowPayload d buf = (List.range d.width.toNat).map (pv buf) →
      rowOK d buf = (List.range d.width.toNat).all
        (fun i => pv buf i < d.dstPalNumEntries) →
      p.stride = d.width.toNat →
      decodeRowPal pv d buf img j =
        (if rowOK d buf then
          Except.ok (img.withPix (img.pixOf.take (j * img.strideOf) ++ rowPayload d buf ++
            img.pixOf.drop (j * img.strideOf + img.strideOf)))
        else Except.error (BmpErr.format "palette index out of range")) := by
    intro pv p himg hpay hok hst
    subst himg
    simp only [Img.strideOf, Img.pixOf, Img.withPix] at hb ⊢
    rw [hok, hpay, List.range_eq_range']
    rw [decodeRowPal, List.range_eq_range']
    rw [decodeRowPalLoop_char pv d buf j d.width.toNat 0 p (by rw [hst] at hb ⊢; omega)]
    rw [apply_ite (Except.map Img.paletted)]
    simp only [Except.map]
    rw [hst]
    simp
  have getPal : img.isIndexed = true → ∃ p, img = Img.paletted p := by
    intro hii
    cases img with
    | paletted p => exact ⟨p, rfl⟩
    | nrgba p => exact absurd hii (by simp [Img.isIndexed])
  unfold rowFuncFor at hf
  split at hf <;> rename_i heq
  · cases Option.some.inj hf
    rcases hg with ⟨_, hpal, hst⟩ | ⟨hbc24, _, _⟩
    · obtain ⟨p, hp⟩ := getPal hpal
      refine palCase pixVal1 p hp ?_ ?_ ?_
      · unfold rowPayload; rw [heq]
      · unfold rowOK; rw [heq]
      · have h3 : (Img.paletted p).strideOf = d.width.toNat := by rw [← hp]; exact hst
        exact h3
    · omega
  · cases Option.some.inj hf
    rcases hg with ⟨_, hpal, hst⟩ | ⟨hbc24, _, _⟩
    · obtain ⟨p, hp⟩ := getPal hpal
      refine palCase pixVal4 p hp ?_ ?_ ?_
      · unfold rowPayload; rw [heq]
      · unfold rowOK; rw [heq]
      · have h3 : (Img.paletted p).strideOf = d.width.toNat := by rw [← hp]; exact hst
        exact h3
    · omega
  · cases Option.some.inj hf
    rcases hg with ⟨_, hpal, hst⟩ | ⟨hbc24, _, _⟩
    · obtain ⟨p, hp⟩ := getPal hpal
      refine palCase pixVal8 p hp ?_ ?_ ?_
      · unfold rowPayload; rw [heq]
      · unfold rowOK; rw [heq]
      · have h3 : (Img.paletted p).strideOf = d.width.toNat := by rw [← hp]; exact hst
        exact h3
    · omega
  · cases Option.some.inj hf
    rcases hg with ⟨hbc, _, _⟩ | ⟨_, hpal, hst⟩
    · rcases hbc with h | h | h <;> omega
    · cases img with
      | paletted p => exact absurd hpal (by simp [Img.isIndexed])
      | nrgba p =>
        simp only [Img.strideOf, Img.pixOf, Img.withPix] at hb hst ⊢
        rw [show rowOK d buf = true by unfold rowOK; rw [heq]]
        rw [if_pos rfl]
        rw [show rowPayload d buf = (List.range' 0 d.width.toNat).flatMap
          (fun i => [buf.getD (i * 3 + 2) 0, buf.getD (i * 3 + 1) 0,
            buf.getD (i * 3 + 0) 0, 255]) by
            unfold rowPayload; rw [heq, List.range_eq_range']]
        rw [decodeRow_24, List.range_eq_range']
        rw [decodeRow24Loop_char buf j d.width.toNat 0 p (by rw [hst] at hb ⊢; omega)]
        rw [hst]
        simp
  · exact absurd hf (by simp)

theorem pixOf_withPix (img : Img) (px : List Nat) : (img.withPix px).pixOf = px := by
  cases img <;> rfl

theorem strideOf_withPix (img : Img) (px : List Nat) :
    (img.withPix px).strideOf = img.strideOf := by
  cases img <;> rfl

theorem isIndexed_withPix (img : Img) (px : List Nat) :
    (img.withPix px).isIndexed = img.isIndexed := by
  cases img <;> rfl

theorem withPix_withPix (img : Img) (a b : List Nat) :
    (img.withPix a).withPix b = img.withPix b := by
  cases img <;> rfl

theorem withPix_pixOf (img : Img) : img.withPix img.pixOf = img := by
  cases img <;> rfl

theorem goodImg_withPix {d : Decoder} {img : Img} (hg : goodImg d img)
    (px : List Nat) : goodImg d (img.withPix px) := by
  unfold goodImg at hg ⊢
  rw [isIndexed_withPix, strideOf_withPix]
  exact hg

theorem readBitsLoop_td {d : Decoder}
    {f : Decoder → List Nat → Img → Nat → Except BmpErr Img}
    (hf : rowFuncFor d.bitCount = some f) (htd : d.isTopDown = true) :
    ∀ (rows : List (List Nat)) (k0 : Nat) (img : Img) (s : List Nat),
      (∀ r ∈ rows, r.length = srcRowStride d) →
      goodImg d img →
      img.pixOf.length = d.height.toNat * img.strideOf →
      k0 + rows.length ≤ d.height.toNat →
      readBitsLoop d f img (rows.flatten ++ s) (List.range' k0 rows.length) =
        (if rows.all (fun r => rowOK d r) then
          Except.ok (img.withPix (img.pixOf.take (k0 * img.strideOf) ++
            (rows.map (rowPayload d)).flatten ++
            img.pixOf.drop (k0 * img.strideOf + rows.length * img.strideOf)), s)
        else Except.error (BmpErr.format "palette index out of range")) := by
  intro rows
  induction rows with
  | nil =>
    intro k0 img s hlen hg hpix hk
    simp [readBitsLoop, withPix_pixOf]
  | cons r rest ih =>
    intro k0 img s hlen hg hpix hk
    simp only [List.length_cons] at hk ⊢
    rw [List.range'_succ]
    simp only [readBitsLoop]
    have hr : r.length = srcRowStride d := hlen r (by simp)
    rw [show ((r :: rest).flatten ++ s) = r ++ (rest.flatten ++ s) by simp]
    rw [readFull_of_le (by rw [List.length_append, hr]; omega)]
    rw [List.take_left' hr, List.drop_left' hr]
    simp only [htd, if_pos]
    have hb1 : k0 * img.strideOf + img.strideOf ≤ img.pixOf.length := by
      have h2 := Nat.mul_le_mul_right img.strideOf (show k0 + 1 ≤ d.height.toNat by omega)
      rw [Nat.succ_mul] at h2
      omega
    rw [rowFunc_char hf hg r k0 hb1]
    by_cases hok : rowOK d r = true
    · rw [if_pos hok]
      simp only []
      have hpaylen : (rowPayload d r).length = img.strideOf :=
        rowPayload_length_of_good hg r
      have hXlen : (img.pixOf.take (k0 * img.strideOf) ++ rowPayload d r ++
          img.pixOf.drop (k0 * img.strideOf + img.strideOf)).length =
          d.height.toNat * img.strideOf := by
        simp only [List.length_append, List.length_take, List.length_drop, hpaylen]
        have h2 := Nat.mul_le_mul_right img.strideOf
          (show k0 + 1 ≤ d.height.toNat by omega)
        rw [Nat.succ_mul] at h2
        omega
      rw [ih (k0 + 1) _ s
        (fun r2 hr2 => hlen r2 (List.mem_cons_of_mem r hr2))
        (goodImg_withPix hg _)
        (by rw [pixOf_withPix, strideOf_withPix, hXlen])
        (by omega)]
      rw [pixOf_withPix, strideOf_withPix, withPix_withPix]
      by_cases hall : rest.all (fun r2 => rowOK d r2) = true
      · rw [if_pos hall, if_pos (by simp [List.all_cons, hok, hall])]
        have hAlen : (img.pixOf.take (k0 * img.strideOf)).length = k0 * img.strideOf := by
          rw [List.length_take]
          have h2 := Nat.mul_le_mul_right img.strideOf
            (show k0 + 1 ≤ d.height.toNat by omega)
          rw [Nat.succ_mul] at h2
          omega
        have hAP : (img.pixOf.take (k0 * img.strideOf) ++ rowPayload d r).length =
            (k0 + 1) * img.strideOf := by
          rw [List.length_append, hAlen, hpaylen, Nat.succ_mul]
        have e1 : (img.pixOf.take (k0 * img.strideOf) ++ rowPayload d r ++
            img.pixOf.drop (k0 * img.strideOf + img.strideOf)).take
              ((k0 + 1) * img.strideOf) =
            img.pixOf.take (k0 * img.strideOf) ++ rowPayload d r :=
          List.take_left' hAP
        have e2 : (img.pixOf.take (k0 * img.strideOf) ++ rowPayload d r ++
            img.pixOf.drop (k0 * img.strideOf + img.strideOf)).drop
              ((k0 + 1) * img.strideOf + rest.length * img.strideOf) =
            img.pixOf.drop (k0 * img.strideOf + (rest.length + 1) * img.strideOf) := by
          rw [show (k0 + 1) * img.strideOf + rest.length * img.strideOf =
            (img.pixOf.take (k0 * img.strideOf) ++ rowPayload d r).length +
              rest.length * img.strideOf by rw [hAP]]
          rw [List.drop_append, List.drop_drop]
          congr 1
          rw [Nat.succ_mul]
          omega
        rw [e1, e2]
        simp only [List.map_cons, List.flatten_cons, List.append_assoc]
      · rw [if_neg hall, if_neg (by simp only [List.all_cons, Bool.and_eq_true]; tauto)]
    · rw [if_neg hok, if_neg (by simp only [List.all_cons, Bool.and_eq_true]; tauto)]

theorem readBitsLoop_bu {d : Decoder}
    {f : Decoder → List Nat → Img → Nat → Except BmpErr Img}
    (hf : rowFuncFor d.bitCount = some f) (htd : d.isTopDown = false) :
    ∀ (rows : List (List Nat)) (k0 : Nat) (img : Img) (s : List Nat),
      (∀ r ∈ rows, r.length = srcRowStride d) →
      goodImg d img →
      img.pixOf.length = d.height.toNat * img.strideOf →
      k0 + rows.length ≤ d.height.toNat →
      readBitsLoop d f img (rows.flatten ++ s) (List.range' k0 rows.length) =
        (if rows.all (fun r => rowOK d r) then
          Except.ok (img.withPix
            (img.pixOf.take ((d.height.toNat - k0 - rows.length) * img.strideOf) ++
            (rows.reverse.map (rowPayload d)).flatten ++
            img.pixOf.drop ((d.height.toNat - k0) * img.strideOf)), s)
        else Except.error (BmpErr.format "palette index out of range")) := by
  intro rows
  induction rows with
  | nil =>
    intro k0 img s hlen hg hpix hk
    simp [readBitsLoop, withPix_pixOf]
  | cons r rest ih =>
    intro k0 img s hlen hg hpix hk
    simp only [List.length_cons] at hk ⊢
    rw [List.range'_succ]
    simp only [readBitsLoop]
    have hr : r.length = srcRowStride d := hlen r (by simp)
    rw [show ((r :: rest).flatten ++ s) = r ++ (rest.flatten ++ s) by simp]
    rw [readFull_of_le (by rw [List.length_append, hr]; omega)]
    rw [List.take_left' hr, List.drop_left' hr]
    simp only [htd, Bool.false_eq_true, if_false]
    have hmul : (d.height.toNat - k0 - 1) * img.strideOf + img.strideOf =
        (d.height.toNat - k0) * img.strideOf := by
      rw [← Nat.succ_mul]
      congr 1
      omega
    have hmulH : (d.height.toNat - k0) * img.strideOf ≤
        d.height.toNat * img.strideOf :=
      Nat.mul_le_mul_right img.strideOf (by omega)
    have hb1 : (d.height.toNat - k0 - 1) * img.strideOf + img.strideOf ≤
        img.pixOf.length := by
      rw [hmul, hpix]
      exact hmulH
    rw [rowFunc_char hf hg r (d.height.toNat - k0 - 1) hb1]
    by_cases hok : rowOK d r = true
    · rw [if_pos hok]
      simp only []
      have hpaylen : (rowPayload d r).length = img.strideOf :=
        rowPayload_length_of_good hg r
      have hAlen : (img.pixOf.take ((d.height.toNat - k0 - 1) * img.strideOf)).length =
          (d.height.toNat - k0 - 1) * img.strideOf := by
        rw [List.length_take, hpix]
        have := Nat.mul_le_mul_right img.strideOf
          (show d.height.toNat - k0 - 1 ≤ d.height.toNat by omega)
        omega
      have hXlen : (img.pixOf.take ((d.height.toNat - k0 - 1) * img.strideOf) ++
          rowPayload d r ++
          img.pixOf.drop ((d.height.toNat - k0 - 1) * img.strideOf + img.strideOf)).length =
          d.height.toNat * img.strideOf := by
        simp only [List.length_append, List.length_take, List.length_drop, hpaylen, hpix]
        rw [hmul]
        have := hmulH
        have h0 : 0 < d.height.toNat - k0 ∨ d.height.toNat - k0 = 0 := by omega
        rcases h0 with h0 | h0
        · have h1 : (d.height.toNat - k0 - 1) * img.strideOf + img.strideOf =
              (d.height.toNat - k0) * img.strideOf := hmul
          omega
        · omega
      rw [ih (k0 + 1) _ s
        (fun r2 hr2 => hlen r2 (List.mem_cons_of_mem r hr2))
        (goodImg_withPix hg _)
        (by rw [pixOf_withPix, strideOf_withPix, hXlen])
        (by omega)]
      rw [pixOf_withPix, strideOf_withPix, withPix_withPix]
      by_cases hall : rest.all (fun r2 => rowOK d r2) = true
      · rw [if_pos hall, if_pos (by simp [List.all_cons, hok, hall])]
        have hk1 : k0 + 1 + rest.length ≤ d.height.toNat := by omega
        have e0 : d.height.toNat - (k0 + 1) - rest.length =
            d.height.toNat - k0 - (rest.length + 1) := by omega
        have hle : (d.height.toNat - (k0 + 1) - rest.length) * img.strideOf ≤
            (d.height.toNat - k0 - 1) * img.strideOf :=
          Nat.mul_le_mul_right img.strideOf (by omega)
        have e1 : (img.pixOf.take ((d.height.toNat - k0 - 1) * img.strideOf) ++
            rowPayload d r ++
            img.pixOf.drop ((d.height.toNat - k0 - 1) * img.strideOf + img.strideOf)).take
              ((d.height.toNat - (k0 + 1) - rest.length) * img.strideOf) =
            img.pixOf.take ((d.height.toNat - k0 - (rest.length + 1)) * img.strideOf) := by
          rw [List.append_assoc, List.take_append_of_le_length (by rw [hAlen]; exact hle)]
          rw [List.take_take, Nat.min_eq_left hle, e0]
        have e2 : (img.pixOf.take ((d.height.toNat - k0 - 1) * img.strideOf) ++
            rowPayload d r ++
            img.pixOf.drop ((d.height.toNat - k0 - 1) * img.strideOf + img.strideOf)).drop
              ((d.height.toNat - (k0 + 1)) * img.strideOf) =
            rowPayload d r ++ img.pixOf.drop ((d.height.toNat - k0) * img.strideOf) := by
          rw [List.append_assoc]
          rw [show (d.height.toNat - (k0 + 1)) * img.strideOf =
            (img.pixOf.take ((d.height.toNat - k0 - 1) * img.strideOf)).length by
              rw [hAlen]; congr 1]
          rw [List.drop_left]
          rw [hmul]
        rw [e1, e2]
        simp only [List.reverse_cons, List.map_append, List.flatten_append,
          List.map_cons, List.flatten_cons, List.map_nil, List.flatten_nil,
          List.append_assoc, List.append_nil]
      · rw [if_neg hall, if_neg (by simp only [List.all_cons, Bool.and_eq_true]; tauto)]
    · rw [if_neg hok, if_neg (by simp only [List.all_cons, Bool.and_eq_true]; tauto)]

theorem readBits_char {d : Decoder} {img : Img} (hg : goodImg d img)
    (rows : List (List Nat)) (rest : List Nat)
    (hlen : ∀ r ∈ rows, r.length = srcRowStride d)
    (hpix : img.pixOf.length = d.height.toNat * img.strideOf)
    (hrows : rows.length = d.height.toNat) :
    readBits d img (rows.flatten ++ rest) =
      (if rows.all (fun r => rowOK d r) then
        Except.ok (img.withPix
          (((if d.isTopDown then rows else rows.reverse).map (rowPayload d)).flatten), rest)
      else Except.error (BmpErr.format "palette index out of range")) := by
  have hfex : ∃ f, rowFuncFor d.bitCount = some f := by
    rcases hg with ⟨hbc, _, _⟩ | ⟨hbc, _, _⟩
    · rcases hbc with h | h | h <;> exact ⟨_, by rw [h]; rfl⟩
    · exact ⟨_, by rw [hbc]; rfl⟩
  obtain ⟨f, hf⟩ := hfex
  rw [readBits, hf]
  simp only []
  rw [List.range_eq_range', ← hrows]
  cases htd : d.isTopDown with
  | true =>
    rw [readBitsLoop_td hf htd rows 0 img rest hlen hg hpix (by omega)]
    rw [if_pos rfl]
    by_cases hall : rows.all (fun r => rowOK d r) = true
    · rw [if_pos hall, if_pos hall]
      simp only [Nat.zero_mul, List.take_zero, Nat.zero_add, List.nil_append]
      rw [List.drop_eq_nil_of_le (by rw [hpix, hrows])]
      rw [List.append_nil]
    · rw [if_neg hall, if_neg hall]
  | false =>
    rw [readBitsLoop_bu hf htd rows 0 img rest hlen hg hpix (by omega)]
    rw [show (if (false : Bool) = true then rows else rows.reverse) = rows.reverse from
      if_neg (by simp)]
    by_cases hall : rows.all (fun r => rowOK d r) = true
    · rw [if_pos hall, if_pos hall]
      rw [show d.height.toNat - 0 - rows.length = 0 by omega]
      simp only [Nat.zero_mul, List.take_zero, List.nil_append, Nat.sub_zero]
      rw [List.drop_eq_nil_of_le (by rw [hpix])]
      rw [List.append_nil]
    · rw [if_neg hall, if_neg hall]

theorem rowSeg_flatten {st : Nat} :
    ∀ (L : List (List Nat)) (j : Nat), (∀ r ∈ L, r.length = st) → j < L.length →
      rowSeg L.flatten st j = L.getD j [] := by
  intro L
  induction L with
  | nil =>
    intro j _ hj
    simp at hj
  | cons r rest ih =>
    intro j hlen hj
    have hr : r.length = st := hlen r (by simp)
    cases j with
    | zero =>
      rw [rowSeg, List.flatten_cons, Nat.zero_mul, List.drop_zero, List.take_left' hr]
      rfl
    | succ j =>
      have hj' : j < rest.length := by
        simp only [List.length_cons] at hj
        omega
      rw [rowSeg, List.flatten_cons]
      rw [show (j + 1) * st = r.length + j * st by rw [hr]; ring]
      rw [List.drop_append]
      have hrec := ih j (fun r2 h2 => hlen r2 (List.mem_cons_of_mem r h2)) hj'
      rw [rowSeg] at hrec
      rw [hrec]
      rfl

theorem readBits_rowSeg {d : Decoder} {img out : Img} {rows : List (List Nat)}
    {rest rest2 : List Nat} (hg : goodImg d img)
    (hlen : ∀ r ∈ rows, r.length = srcRowStride d)
    (hpix : img.pixOf.length = d.height.toNat * img.strideOf)
    (hrows : rows.length = d.height.toNat)
    (hok : readBits d img (rows.flatten ++ rest) = Except.ok (out, rest2))
    {k : Nat} (hk : k < rows.length) :
    rowSeg out.pixOf img.strideOf
      (if d.isTopDown then k else d.height.toNat - 1 - k) =
      rowPayload d (rows.getD k []) := by
  rw [readBits_char hg rows rest hlen hpix hrows] at hok
  by_cases hall : rows.all (fun r => rowOK d r) = true
  · rw [if_pos hall] at hok
    have hout : img.withPix
        (((if d.isTopDown then rows else rows.reverse).map (rowPayload d)).flatten) =
        out := congrArg Prod.fst (Except.ok.inj hok)
    rw [← hout, pixOf_withPix]
    have hLlen : ∀ r2 ∈ (if d.isTopDown then rows else rows.reverse).map (rowPayload d),
        r2.length = img.strideOf := by
      intro r2 h2
      obtain ⟨r3, _, hr3⟩ := List.mem_map.mp h2
      rw [← hr3]
      exact rowPayload_length_of_good hg r3
    cases htd : d.isTopDown with
    | true =>
      rw [if_pos rfl, if_pos rfl]
      rw [rowSeg_flatten (rows.map (rowPayload d)) k
        (by rw [← htd] at hLlen; rw [htd] at hLlen; simpa [htd] using hLlen)
        (by simpa using hk)]
      simp [List.getD_eq_getElem?_getD, List.getElem?_map, List.getElem?_eq_getElem hk]
    | false =>
      rw [if_neg (by simp), if_neg (by simp)]
      have hdst : d.height.toNat - 1 - k < rows.length := by omega
      rw [rowSeg_flatten (rows.reverse.map (rowPayload d)) (d.height.toNat - 1 - k)
        (by simpa [htd] using hLlen) (by simpa using hdst)]
      have hrev : rows.reverse[d.height.toNat - 1 - k]? = rows[k]? := by
        rw [List.getElem?_reverse hdst]
        congr 1
        omega
      rw [List.getD_eq_getElem?_getD, List.getElem?_map, hrev,
        List.getElem?_eq_getElem hk]
      simp [List.getD_eq_getElem?_getD, List.getElem?_eq_getElem hk]
  · rw [if_neg hall] at hok
    exact absurd hok (by simp)

theorem mkBMP_dih40 {wB hB planesB bcB compB midB cuB ciB : List Nat}
    {W HS : Int} {BC CU : Nat}
    (hwB : wB.length = 4) (hhB : hB.length = 4) (hplanesB : planesB.length = 2)
    (hbcB : bcB.length = 2) (hcompB : compB.length = 4) (hmidB : midB.length = 12)
    (hcuB : cuB.length = 4)
    (hWv : toInt32 (getDWORD wB) = W) (hHv : toInt32 (getDWORD hB) = HS)
    (hBCv : getWORD bcB = BC) (hCUv : getDWORD cuB = CU)
    (hw : 1 ≤ W) (hh : HS ≠ 0) (hcomp : getDWORD compB = 0) (hcu : CU ≤ 10000)
    (d : Decoder) :
    decodeInfoHeader40 d
      (List.replicate 4 0 ++ wB ++ hB ++ planesB ++ bcB ++ compB ++ midB ++ cuB ++ ciB)
      false =
      Except.ok (dih40Out d W (if HS < 0 then -HS else HS)
        (if HS < 0 then true else d.isTopDown) BC (palCount BC CU)) := by
  have e4 : (List.replicate 4 0 ++ wB ++ hB ++ planesB ++ bcB ++ compB ++ midB ++
      cuB ++ ciB).drop 4 = wB ++ (hB ++ planesB ++ bcB ++ compB ++ midB ++ cuB ++ ciB) := by
    rw [show (List.replicate 4 0 : List Nat) ++ wB ++ hB ++ planesB ++ bcB ++ compB ++
        midB ++ cuB ++ ciB = List.replicate 4 0 ++
        (wB ++ (hB ++ planesB ++ bcB ++ compB ++ midB ++ cuB ++ ciB)) from by
      simp [List.append_assoc]]
    exact List.drop_left' (by simp)
  have e8 : (List.replicate 4 0 ++ wB ++ hB ++ planesB ++ bcB ++ compB ++ midB ++
      cuB ++ ciB).drop 8 = hB ++ (planesB ++ bcB ++ compB ++ midB ++ cuB ++ ciB) := by
    rw [show (List.replicate 4 0 : List Nat) ++ wB ++ hB ++ planesB ++ bcB ++ compB ++
        midB ++ cuB ++ ciB = (List.replicate 4 0 ++ wB) ++
        (hB ++ (planesB ++ bcB ++ compB ++ midB ++ cuB ++ ciB)) from by
      simp [List.append_assoc]]
    exact List.drop_left' (by simp [hwB])
  have e14 : (List.replicate 4 0 ++ wB ++ hB ++ planesB ++ bcB ++ compB ++ midB ++
      cuB ++ ciB).drop 14 = bcB ++ (compB ++ midB ++ cuB ++ ciB) := by
    rw [show (List.replicate 4 0 : List Nat) ++ wB ++ hB ++ planesB ++ bcB ++ compB ++
        midB ++ cuB ++ ciB = (List.replicate 4 0 ++ wB ++ hB ++ planesB) ++
        (bcB ++ (compB ++ midB ++ cuB ++ ciB)) from by
      simp [List.append_assoc]]
    exact List.drop_left' (by simp [hwB, hhB, hplanesB])
  have e16 : (List.replicate 4 0 ++ wB ++ hB ++ planesB ++ bcB ++ compB ++ midB ++
      cuB ++ ciB).drop 16 = compB ++ (midB ++ cuB ++ ciB) := by
    rw [show (List.replicate 4 0 : List Nat) ++ wB ++ hB ++ planesB ++ bcB ++ compB ++
        midB ++ cuB ++ ciB = (List.replicate 4 0 ++ wB ++ hB ++ planesB ++ bcB) ++
        (compB ++ (midB ++ cuB ++ ciB)) from by
      simp [List.append_assoc]]
    exact List.drop_left' (by simp [hwB, hhB, hplanesB, hbcB])
  have e32 : (List.replicate 4 0 ++ wB ++ hB ++ planesB ++ bcB ++ compB ++ midB ++
      cuB ++ ciB).drop 32 = cuB ++ ciB := by
    rw [show (List.replicate 4 0 : List Nat) ++ wB ++ hB ++ planesB ++ bcB ++ compB ++
        midB ++ cuB ++ ciB = (List.replicate 4 0 ++ wB ++ hB ++ planesB ++ bcB ++
        compB ++ midB) ++ (cuB ++ ciB) from by
      simp [List.append_assoc]]
    exact List.drop_left' (by simp [hwB, hhB, hplanesB, hbcB, hcompB, hmidB])
  have f4 : toInt32 (getDWORD ((List.replicate 4 0 ++ wB ++ hB ++ planesB ++ bcB ++
      compB ++ midB ++ cuB ++ ciB).drop 4)) = W := by
    rw [e4, getDWORD_append hwB, hWv]
  have f8 : toInt32 (getDWORD ((List.replicate 4 0 ++ wB ++ hB ++ planesB ++ bcB ++
      compB ++ midB ++ cuB ++ ciB).drop 8)) = HS := by
    rw [e8, getDWORD_append hhB, hHv]
  have f14 : getWORD ((List.replicate 4 0 ++ wB ++ hB ++ planesB ++ bcB ++
      compB ++ midB ++ cuB ++ ciB).drop 14) = BC := by
    rw [e14, getWORD_append hbcB, hBCv]
  have f16 : getDWORD ((List.replicate 4 0 ++ wB ++ hB ++ planesB ++ bcB ++
      compB ++ midB ++ cuB ++ ciB).drop 16) = 0 := by
    rw [e16, getDWORD_append hcompB, hcomp]
  have f32 : getDWORD ((List.replicate 4 0 ++ wB ++ hB ++ planesB ++ bcB ++
      compB ++ midB ++ cuB ++ ciB).drop 32) = CU := by
    rw [e32, getDWORD_append hcuB, hCUv]
  simp only [decodeInfoHeader40, f4, f8, f14, f16, f32]
  rw [if_neg (by omega)]
  rw [if_neg (by omega)]
  rw [if_neg (by simp)]
  rw [if_neg (by simp [bI_RGB])]
  rw [if_neg (by omega)]
  by_cases hbc8 : 1 ≤ BC ∧ BC ≤ 8
  · rw [if_pos hbc8]
    by_cases hcu0 : CU = 0
    · rw [if_pos hcu0]
      rw [if_neg (by simp [bI_BITFIELDS])]
      rw [show palCount BC CU = 2 ^ BC from by rw [palCount, if_pos hbc8, if_pos hcu0]]
      rfl
    · rw [if_neg hcu0]
      rw [if_neg (by simp [bI_BITFIELDS])]
      rw [show palCount BC CU = CU from by rw [palCount, if_pos hbc8, if_neg hcu0]]
      rfl
  · rw [if_neg hbc8]
    rw [if_neg (by simp [bI_BITFIELDS])]
    rw [show palCount BC CU = CU from by rw [palCount, if_neg hbc8]]
    rfl

theorem mkBMP_headers {resv off wB hB planesB bcB compB midB cuB ciB pal gap px : List Nat}
    {W HS : Int} {BC CU : Nat}
    (hresv : resv.length = 8) (hoff : off.length = 4) (hwB : wB.length = 4)
    (hhB : hB.length = 4) (hplanesB : planesB.length = 2) (hbcB : bcB.length = 2)
    (hcompB : compB.length = 4) (hmidB : midB.length = 12) (hcuB : cuB.length = 4)
    (hciB : ciB.length = 4)
    (hWv : toInt32 (getDWORD wB) = W) (hHv : toInt32 (getDWORD hB) = HS)
    (hBCv : getWORD bcB = BC) (hCUv : getDWORD cuB = CU)
    (hw : 1 ≤ W) (hh : HS ≠ 0) (hcomp : getDWORD compB = 0) (hcu : CU ≤ 10000) :
    readHeaders {} false (mkBMP resv off wB hB planesB bcB compB midB cuB ciB pal gap px) =
      Except.ok (hdrDecoder off W (if HS < 0 then -HS else HS)
        (if HS < 0 then true else false) BC CU, pal ++ gap ++ px) := by
  have e18 : mkBMP resv off wB hB planesB bcB compB midB cuB ciB pal gap px =
      ([0x42, 0x4d] ++ resv ++ off ++ [40, 0, 0, 0]) ++
        ((wB ++ hB ++ planesB ++ bcB ++ compB ++ midB ++ cuB ++ ciB) ++
          (pal ++ gap ++ px)) := by
    simp [mkBMP, List.append_assoc]
  have l18 : ([0x42, 0x4d] ++ resv ++ off ++ [40, 0, 0, 0] : List Nat).length = 18 := by
    simp [hresv, hoff]
  have l36 : (wB ++ hB ++ planesB ++ bcB ++ compB ++ midB ++ cuB ++ ciB : List Nat).length
      = 36 := by
    simp [hwB, hhB, hplanesB, hbcB, hcompB, hmidB, hcuB, hciB]
  have etake18 : (mkBMP resv off wB hB planesB bcB compB midB cuB ciB pal gap px).take 18 =
      [0x42, 0x4d] ++ resv ++ off ++ [40, 0, 0, 0] := by
    rw [e18]
    exact List.take_left' l18
  have edrop18 : (mkBMP resv off wB hB planesB bcB compB midB cuB ciB pal gap px).drop 18 =
      (wB ++ hB ++ planesB ++ bcB ++ compB ++ midB ++ cuB ++ ciB) ++
        (pal ++ gap ++ px) := by
    rw [e18]
    exact List.drop_left' l18
  have h18 : 18 ≤ (mkBMP resv off wB hB planesB bcB compB midB cuB ciB pal gap px).length := by
    rw [e18, List.length_append, l18]
    omega
  have hb0 : (mkBMP resv off wB hB planesB bcB compB midB cuB ciB pal gap px).getD 0 0
      = 0x42 := by
    rw [show mkBMP resv off wB hB planesB bcB compB midB cuB ciB pal gap px =
      [0x42, 0x4d] ++ (resv ++ off ++ [40, 0, 0, 0] ++ wB ++ hB ++ planesB ++ bcB ++
        compB ++ midB ++ cuB ++ ciB ++ pal ++ gap ++ px) from by
      simp [mkBMP, List.append_assoc]]
    rw [getD_append_left (by simp)]
    rfl
  have hb1 : (mkBMP resv off wB hB planesB bcB compB midB cuB ciB pal gap px).getD 1 0
      = 0x4d := by
    rw [show mkBMP resv off wB hB planesB bcB compB midB cuB ciB pal gap px =
      [0x42, 0x4d] ++ (resv ++ off ++ [40, 0, 0, 0] ++ wB ++ hB ++ planesB ++ bcB ++
        compB ++ midB ++ cuB ++ ciB ++ pal ++ gap ++ px) from by
      simp [mkBMP, List.append_assoc]]
    rw [getD_append_left (by simp)]
    rfl
  have hhs : getDWORD (((mkBMP resv off wB hB planesB bcB compB midB cuB ciB pal gap
      px).take 18).drop 14) = 40 := by
    rw [etake18]
    rw [show ([0x42, 0x4d] ++ resv ++ off ++ [40, 0, 0, 0] : List Nat) =
      ([0x42, 0x4d] ++ resv ++ off) ++ [40, 0, 0, 0] from by simp [List.append_assoc]]
    rw [List.drop_left' (by simp [hresv, hoff])]
    decide
  have h36 : 36 ≤ ((mkBMP resv off wB hB planesB bcB compB midB cuB ciB pal gap
      px).drop 18).length := by
    rw [edrop18, List.length_append, l36]
    omega
  have e10 : (((mkBMP resv off wB hB planesB bcB compB midB cuB ciB pal gap
      px).take 14).drop 10) = off := by
    rw [show mkBMP resv off wB hB planesB bcB compB midB cuB ciB pal gap px =
      ([0x42, 0x4d] ++ resv ++ off) ++ ([40, 0, 0, 0] ++ wB ++ hB ++ planesB ++ bcB ++
        compB ++ midB ++ cuB ++ ciB ++ pal ++ gap ++ px) from by
      simp [mkBMP, List.append_assoc]]
    rw [List.take_left' (by simp [hresv, hoff])]
    rw [show ([0x42, 0x4d] ++ resv ++ off : List Nat) = ([0x42, 0x4d] ++ resv) ++ off
      from by simp [List.append_assoc]]
    exact List.drop_left' (by simp [hresv])
  have etake36 : ((mkBMP resv off wB hB planesB bcB compB midB cuB ciB pal gap
      px).drop 18).take 36 = wB ++ hB ++ planesB ++ bcB ++ compB ++ midB ++ cuB ++ ciB := by
    rw [edrop18]
    exact List.take_left' l36
  have edrop36 : ((mkBMP resv off wB hB planesB bcB compB midB cuB ciB pal gap
      px).drop 18).drop 36 = pal ++ gap ++ px := by
    rw [edrop18]
    exact List.drop_left' l36
  have hfn : decodeInfoHeader40
      { bfOffBits := getDWORD (((mkBMP resv off wB hB planesB bcB compB midB cuB ciB pal
          gap px).take 14).drop 10), headerSize := 40 }
      (List.replicate 4 0 ++ ((mkBMP resv off wB hB planesB bcB compB midB cuB ciB pal
        gap px).drop 18).take 36) false =
      Except.ok (dih40Out
        { bfOffBits := getDWORD (((mkBMP resv off wB hB planesB bcB compB midB cuB ciB pal
          gap px).take 14).drop 10), headerSize := 40 }
        W (if HS < 0 then -HS else HS) (if HS < 0 then true else false) BC
        (palCount BC CU)) := by
    rw [etake36]
    rw [show (List.replicate 4 0 : List Nat) ++
        (wB ++ hB ++ planesB ++ bcB ++ compB ++ midB ++ cuB ++ ciB) =
        List.replicate 4 0 ++ wB ++ hB ++ planesB ++ bcB ++ compB ++ midB ++ cuB ++ ciB
      from by simp [List.append_assoc]]
    exact mkBMP_dih40 hwB hhB hplanesB hbcB hcompB hmidB hcuB hWv hHv hBCv hCUv
      hw hh hcomp hcu _
  refine Eq.trans (readHeaders_ok_intro h18 hb0 hb1 hhs h36 hfn) ?_
  rw [edrop36, e10]
  by_cases hbc8 : 1 ≤ BC ∧ BC ≤ 8 <;>
    simp [dih40Out, hdrDecoder, hbc8]

theorem readGap_exact {d : Decoder} {gap s : List Nat}
    (hoffv : (d.bfOffBits : Int) =
      14 + d.headerSize + d.bitFieldsSize + d.srcPalSizeInBytes + gap.length) :
    readGap d (gap ++ s) = Except.ok s := by
  simp only [readGap]
  by_cases hgl : gap.length = 0
  · rw [if_pos (by omega)]
    rw [List.length_eq_zero.mp hgl]
    rfl
  · rw [if_neg (by omega), if_neg (by omega)]
    rw [skipBytes]
    rw [show ((d.bfOffBits : Int) -
        (14 + (d.headerSize : Int) + (d.bitFieldsSize : Int) +
          (d.srcPalSizeInBytes : Int))).toNat = gap.length from by omega]
    rw [skipBytesLoop_ok _ _ (by simp)]
    rw [List.drop_left]

theorem readPalette_mkBMP {off : List Nat} {w ht : Int} {td : Bool} {bc cu : Nat}
    {pal s2 : List Nat} (hpal : pal.length = palCount bc cu * 4) :
    readPalette (hdrDecoder off w ht td bc cu) (pal ++ s2) =
      Except.ok (postPalDecoder off w ht td bc cu pal, s2) := by
  rw [readPalette]
  rw [readFull_of_le (show (hdrDecoder off w ht td bc cu).srcPalSizeInBytes ≤
    (pal ++ s2).length from by simp [hdrDecoder]; omega)]
  rw [show ((hdrDecoder off w ht td bc cu).srcPalSizeInBytes : Nat) = pal.length from by
    simp [hdrDecoder, hpal]]
  simp only []
  rw [List.take_left, List.drop_left]
  by_cases hbc8 : 1 ≤ bc ∧ bc ≤ 8
  · rw [if_neg (show ¬¬((hdrDecoder off w ht td bc cu).dstHasPalette = true) from by
      simp [hdrDecoder, hbc8])]
    simp [hdrDecoder, postPalDecoder, palEntries, dstCount, hbc8, hpal]
  · rw [if_pos (show ¬((hdrDecoder off w ht td bc cu).dstHasPalette = true) from by
      simp [hdrDecoder, hbc8])]
    simp [hdrDecoder, postPalDecoder, dstCount, hbc8, hpal]

theorem mkImg_eq {off : List Nat} {w ht : Int} {td : Bool} {bc cu : Nat} {pal : List Nat} :
    (if (postPalDecoder off w ht td bc cu pal).dstHasPalette then
      Img.paletted (newPaletted (postPalDecoder off w ht td bc cu pal).width
        (postPalDecoder off w ht td bc cu pal).height
        (postPalDecoder off w ht td bc cu pal).dstPalette)
    else Img.nrgba (newNRGBA (postPalDecoder off w ht td bc cu pal).width
      (postPalDecoder off w ht td bc cu pal).height)) = mkImg w ht bc cu pal := by
  by_cases hbc8 : 1 ≤ bc ∧ bc ≤ 8 <;> simp [postPalDecoder, mkImg, dstCount, hbc8]

theorem postPal_24 {off : List Nat} {w ht : Int} {td : Bool} {cu : Nat} {pal : List Nat} :
    postPalDecoder off w ht td 24 cu pal = hdrDecoder off w ht td 24 cu := by
  simp [postPalDecoder, hdrDecoder, dstCount]

theorem goodImg_mkImg {off : List Nat} {w ht : Int} {td : Bool} {bc cu : Nat}
    {pal : List Nat} (hbc : bc = 1 ∨ bc = 4 ∨ bc = 8 ∨ bc = 24) :
    goodImg (postPalDecoder off w ht td bc cu pal) (mkImg w ht bc cu pal) := by
  rcases hbc with h | h | h | h <;> subst h
  · exact Or.inl ⟨Or.inl rfl, by simp [mkImg, Img.isIndexed],
      by simp [mkImg, Img.strideOf, newPaletted, postPalDecoder]⟩
  · exact Or.inl ⟨Or.inr (Or.inl rfl), by simp [mkImg, Img.isIndexed],
      by simp [mkImg, Img.strideOf, newPaletted, postPalDecoder]⟩
  · exact Or.inl ⟨Or.inr (Or.inr rfl), by simp [mkImg, Img.isIndexed],
      by simp [mkImg, Img.strideOf, newPaletted, postPalDecoder]⟩
  · exact Or.inr ⟨rfl, by simp [mkImg, Img.isIndexed],
      by simp [mkImg, Img.strideOf, newNRGBA, postPalDecoder]⟩

theorem mkImg_pix_length {w ht : Int} {bc cu : Nat} {pal : List Nat} :
    (mkImg w ht bc cu pal).pixOf.length = ht.toNat * (mkImg w ht bc cu pal).strideOf := by
  by_cases hbc8 : 1 ≤ bc ∧ bc ≤ 8 <;>
    simp [mkImg, Img.pixOf, Img.strideOf, newPaletted, newNRGBA, hbc8, Nat.mul_comm]

theorem Decode_mkBMP {resv off wB hB planesB bcB compB midB cuB ciB pal gap : List Nat}
    {rows : List (List Nat)} {W HS HT : Int} {TD : Bool} {BC CU : Nat}
    (hresv : resv.length = 8) (hoff : off.length = 4) (hwB : wB.length = 4)
    (hhB : hB.length = 4) (hplanesB : planesB.length = 2) (hbcB : bcB.length = 2)
    (hcompB : compB.length = 4) (hmidB : midB.length = 12) (hcuB : cuB.length = 4)
    (hciB : ciB.length = 4)
    (hWv : toInt32 (getDWORD wB) = W) (hHv : toInt32 (getDWORD hB) = HS)
    (hBCv : getWORD bcB = BC) (hCUv : getDWORD cuB = CU)
    (hHT : HT = if HS < 0 then -HS else HS) (hTD : TD = if HS < 0 then true else false)
    (hw : 1 ≤ W) (hh : HS ≠ 0) (hcomp : getDWORD compB = 0) (hcu : CU ≤ 10000)
    (hbc : BC = 1 ∨ BC = 4 ∨ BC = 8 ∨ BC = 24)
    (hpal : pal.length = palCount BC CU * 4)
    (hoffv : getDWORD off = 54 + pal.length + gap.length)
    (hrows : rows.length = HT.toNat)
    (hrlen : ∀ r ∈ rows, r.length = ((W.toNat * BC + 31) / 32) * 4) :
    Decode (mkBMP resv off wB hB planesB bcB compB midB cuB ciB pal gap rows.flatten) =
      (if rows.all (fun r => rowOK (postPalDecoder off W HT TD BC CU pal) r) then
        Except.ok ((mkImg W HT BC CU pal).withPix
          (((if TD then rows else rows.reverse).map
            (rowPayload (postPalDecoder off W HT TD BC CU pal))).flatten))
      else Except.error (BmpErr.format "palette index out of range")) := by
  rw [Decode, mkBMP_headers hresv hoff hwB hhB hplanesB hbcB hcompB hmidB hcuB hciB
    hWv hHv hBCv hCUv hw hh hcomp hcu]
  rw [← hHT, ← hTD]
  simp only []
  rw [if_neg (show ¬((hdrDecoder off W HT TD BC CU).biCompression ≠ bI_RGB) from by
    simp [hdrDecoder, bI_RGB])]
  rw [if_neg (show ¬¬((hdrDecoder off W HT TD BC CU).bitCount = 1 ∨
      (hdrDecoder off W HT TD BC CU).bitCount = 4 ∨
      (hdrDecoder off W HT TD BC CU).bitCount = 8 ∨
      (hdrDecoder off W HT TD BC CU).bitCount = 24) from not_not_intro hbc)]
  rw [List.append_assoc]
  rcases (show (1 ≤ BC ∧ BC ≤ 8) ∨ BC = 24 from by
    rcases hbc with h | h | h | h <;> subst h <;> norm_num) with hbc8 | hbc24
  · have hpc : 0 < (hdrDecoder off W HT TD BC CU).srcPalNumEntries := by
      show 0 < palCount BC CU
      rw [palCount, if_pos hbc8]
      by_cases hcu0 : CU = 0
      · rw [if_pos hcu0]
        exact Nat.pos_pow_of_pos BC (by norm_num)
      · rw [if_neg hcu0]
        omega
    rw [if_pos hpc, readPalette_mkBMP hpal]
    simp only []
    rw [mkImg_eq]
    rw [readGap_exact (show ((postPalDecoder off W HT TD BC CU pal).bfOffBits : Int) =
      14 + ((postPalDecoder off W HT TD BC CU pal).headerSize : Int) +
      ((postPalDecoder off W HT TD BC CU pal).bitFieldsSize : Int) +
      ((postPalDecoder off W HT TD BC CU pal).srcPalSizeInBytes : Int) +
      (gap.length : Int) from by simp [postPalDecoder]; omega)]
    simp only []
    rw [show rows.flatten = rows.flatten ++ [] from (List.append_nil _).symm]
    rw [readBits_char (goodImg_mkImg hbc) rows [] hrlen mkImg_pix_length hrows]
    by_cases hall :
        rows.all (fun r => rowOK (postPalDecoder off W HT TD BC CU pal) r) = true
    · rw [if_pos hall, if_pos hall]
      rfl
    · rw [if_neg hall, if_neg hall]
  · subst hbc24
    by_cases hcu0 : CU = 0
    · rw [if_neg (show ¬(0 < (hdrDecoder off W HT TD 24 CU).srcPalNumEntries) from by
        show ¬(0 < palCount 24 CU)
        rw [palCount, if_neg (by norm_num)]
        omega)]
      simp only []
      rw [← postPal_24]
      have hpn : pal = [] := List.length_eq_zero.mp (by
        rw [hpal, palCount, if_neg (by norm_num), hcu0])
      rw [hpn]
      simp only [List.nil_append]
      rw [mkImg_eq]
      rw [readGap_exact (show ((postPalDecoder off W HT TD 24 CU []).bfOffBits : Int) =
        14 + ((postPalDecoder off W HT TD 24 CU []).headerSize : Int) +
        ((postPalDecoder off W HT TD 24 CU []).bitFieldsSize : Int) +
        ((postPalDecoder off W HT TD 24 CU []).srcPalSizeInBytes : Int) +
        (gap.length : Int) from by simp [postPalDecoder]; omega)]
      simp only []
      rw [show rows.flatten = rows.flatten ++ [] from (List.append_nil _).symm]
      rw [readBits_char (goodImg_mkImg hbc) rows [] hrlen mkImg_pix_length hrows]
      by_cases hall :
          rows.all (fun r => rowOK (postPalDecoder off W HT TD 24 CU []) r) = true
      · rw [if_pos hall, if_pos hall]
        rfl
      · rw [if_neg hall, if_neg hall]
    · rw [if_pos (show 0 < (hdrDecoder off W HT TD 24 CU).srcPalNumEntries from by
        show 0 < palCount 24 CU
        rw [palCount, if_neg (by norm_num)]
        omega)]
      rw [readPalette_mkBMP hpal]
      simp only []
      rw [mkImg_eq]
      rw [readGap_exact (show ((postPalDecoder off W HT TD 24 CU pal).bfOffBits : Int) =
        14 + ((postPalDecoder off W HT TD 24 CU pal).headerSize : Int) +
        ((postPalDecoder off W HT TD 24 CU pal).bitFieldsSize : Int) +
        ((postPalDecoder off W HT TD 24 CU pal).srcPalSizeInBytes : Int) +
        (gap.length : Int) from by simp [postPalDecoder]; omega)]
      simp only []
      rw [show rows.flatten = rows.flatten ++ [] from (List.append_nil _).symm]
      rw [readBits_char (goodImg_mkImg hbc) rows [] hrlen mkImg_pix_length hrows]
      by_cases hall :
          rows.all (fun r => rowOK (postPalDecoder off W HT TD 24 CU pal) r) = true
      · rw [if_pos hall, if_pos hall]
        rfl
      · rw [if_neg hall, if_neg hall]




/-- C3: whenever `readBits` succeeds, the row read from source position
`k` is placed at output row `k` if `isTopDown` holds and at output row
`height - 1 - k` otherwise; consequently a file declaring height `+H`
with its rows in one order and an otherwise identical file declaring
height `-H` (as an unsigned 32-bit value) with the same rows stored in
reverse order decode to identical results. -/
theorem row_order_spec
    {d : Decoder} {img out : Img} {rows : List (List Nat)} {rest rest2 : List Nat}
    (hg : goodImg d img)
    (hlen : ∀ r ∈ rows, r.length = srcRowStride d)
    (hpix : img.pixOf.length = d.height.toNat * img.strideOf)
    (hrows : rows.length = d.height.toNat)
    (hok : readBits d img (rows.flatten ++ rest) = Except.ok (out, rest2))
    {resv off wB hBp hBn planesB bcB compB midB cuB ciB pal gap : List Nat}
    {rows2 : List (List Nat)} {W H : Int} {BC CU : Nat}
    (hresv : resv.length = 8) (hoff : off.length = 4) (hwB : wB.length = 4)
    (hhBp : hBp.length = 4) (hhBn : hBn.length = 4) (hplanesB : planesB.length = 2)
    (hbcB : bcB.length = 2) (hcompB : compB.length = 4) (hmidB : midB.length = 12)
    (hcuB : cuB.length = 4) (hciB : ciB.length = 4)
    (hWv : toInt32 (getDWORD wB) = W) (hHp : toInt32 (getDWORD hBp) = H)
    (hHn : toInt32 (getDWORD hBn) = -H)
    (hBCv : getWORD bcB = BC) (hCUv : getDWORD cuB = CU)
    (hw : 1 ≤ W) (hH1 : 1 ≤ H) (hcomp : getDWORD compB = 0) (hcu : CU ≤ 10000)
    (hbc : BC = 1 ∨ BC = 4 ∨ BC = 8 ∨ BC = 24)
    (hpal : pal.length = palCount BC CU * 4)
    (hoffv : getDWORD off = 54 + pal.length + gap.length)
    (hrows2 : rows2.length = H.toNat)
    (hrlen2 : ∀ r ∈ rows2, r.length = ((W.toNat * BC + 31) / 32) * 4) :
    (∀ k, k < rows.length →
      rowSeg out.pixOf img.strideOf
        (if d.isTopDown then k else d.height.toNat - 1 - k) =
        rowPayload d (rows.getD k [])) ∧
    Decode (mkBMP resv off wB hBp planesB bcB compB midB cuB ciB pal gap
        rows2.flatten) =
      Decode (mkBMP resv off wB hBn planesB bcB compB midB cuB ciB pal gap
        rows2.reverse.flatten) := by
  constructor
  · intro k hk
    exact readBits_rowSeg hg hlen hpix hrows hok hk
  · rw [Decode_mkBMP hresv hoff hwB hhBp hplanesB hbcB hcompB hmidB hcuB hciB
      hWv hHp hBCv hCUv
      (show H = if H < 0 then -H else H from by rw [if_neg (by omega)])
      (show false = if H < 0 then true else false from by rw [if_neg (by omega)])
      hw (by omega) hcomp hcu hbc hpal hoffv hrows2 hrlen2]
    rw [Decode_mkBMP hresv hoff hwB hhBn hplanesB hbcB hcompB hmidB hcuB hciB
      hWv hHn hBCv hCUv
      (show H = if -H < 0 then -(-H) else -H from by rw [if_pos (by omega), neg_neg])
      (show true = if -H < 0 then true else false from by rw [if_pos (by omega)])
      hw (by omega) hcomp hcu hbc hpal hoffv
      (show rows2.reverse.length = H.toNat from by rw [List.length_reverse]; exact hrows2)
      (fun r hr => hrlen2 r (List.mem_reverse.mp hr))]
    rw [show (if (false : Bool) = true then rows2 else rows2.reverse) = rows2.reverse from
      if_neg (by simp)]
    rw [show (if (true : Bool) = true then rows2.reverse else rows2.reverse.reverse) =
      rows2.reverse from if_pos rfl]
    rw [List.all_reverse]
    rfl

/-- Witness for `row_order_spec`: in a 2x2 8-bit bottom-up decode,
source row 0 lands at output row 1 and source row 1 at output row 0, and
the concrete height `+2` file equals the height `-2` file with reversed
rows under `Decode`. -/
theorem row_order_spec_witness :
    (∀ k, k < ([[0, 1, 0, 0], [1, 1, 0, 0]] : List (List Nat)).length →
      rowSeg c3out.pixOf c3img.strideOf
        (if c3d.isTopDown then k else c3d.height.toNat - 1 - k) =
        rowPayload c3d (([[0, 1, 0, 0], [1, 1, 0, 0]] : List (List Nat)).getD k [])) ∧
    Decode (mkBMP [0, 0, 0, 0, 0, 0, 0, 0] [62, 0, 0, 0] [2, 0, 0, 0] [2, 0, 0, 0]
        [1, 0] [8, 0] [0, 0, 0, 0] [0, 0, 0, 0, 0, 0, 0, 0, 0, 0, 0, 0] [2, 0, 0, 0]
        [0, 0, 0, 0] [10, 20, 30, 0, 40, 50, 60, 0] []
        ([[0, 1, 0, 0], [1, 1, 0, 0]] : List (List Nat)).flatten) =
      Decode (mkBMP [0, 0, 0, 0, 0, 0, 0, 0] [62, 0, 0, 0] [2, 0, 0, 0]
        [254, 255, 255, 255] [1, 0] [8, 0] [0, 0, 0, 0]
        [0, 0, 0, 0, 0, 0, 0, 0, 0, 0, 0, 0] [2, 0, 0, 0] [0, 0, 0, 0]
        [10, 20, 30, 0, 40, 50, 60, 0] []
        ([[0, 1, 0, 0], [1, 1, 0, 0]] : List (List Nat)).reverse.flatten) :=
  row_order_spec
    (show goodImg c3d c3img from by unfold goodImg; decide)
    (show ∀ r ∈ ([[0, 1, 0, 0], [1, 1, 0, 0]] : List (List Nat)),
      r.length = srcRowStride c3d from by decide)
    (show c3img.pixOf.length = c3d.height.toNat * c3img.strideOf from by decide)
    (show ([[0, 1, 0, 0], [1, 1, 0, 0]] : List (List Nat)).length = c3d.height.toNat
      from by decide)
    (show readBits c3d c3img
        (([[0, 1, 0, 0], [1, 1, 0, 0]] : List (List Nat)).flatten ++ []) =
      Except.ok (c3out, []) from by decide)
    (show ([0, 0, 0, 0, 0, 0, 0, 0] : List Nat).length = 8 from by decide)
    (show ([62, 0, 0, 0] : List Nat).length = 4 from by decide)
    (show ([2, 0, 0, 0] : List Nat).length = 4 from by decide)
    (show ([2, 0, 0, 0] : List Nat).length = 4 from by decide)
    (show ([254, 255, 255, 255] : List Nat).length = 4 from by decide)
    (show ([1, 0] : List Nat).length = 2 from by decide)
    (show ([8, 0] : List Nat).length = 2 from by decide)
    (show ([0, 0, 0, 0] : List Nat).length = 4 from by decide)
    (show ([0, 0, 0, 0, 0, 0, 0, 0, 0, 0, 0, 0] : List Nat).length = 12 from by decide)
    (show ([2, 0, 0, 0] : List Nat).length = 4 from by decide)
    (show ([0, 0, 0, 0] : List Nat).length = 4 from by decide)
    (show toInt32 (getDWORD [2, 0, 0, 0]) = 2 from by decide)
    (show toInt32 (getDWORD [2, 0, 0, 0]) = 2 from by decide)
    (show toInt32 (getDWORD [254, 255, 255, 255]) = -2 from by decide)
    (show getWORD [8, 0] = 8 from by decide)
    (show getDWORD [2, 0, 0, 0] = 2 from by decide)
    (show (1 : Int) ≤ 2 from by decide)
    (show (1 : Int) ≤ 2 from by decide)
    (show getDWORD [0, 0, 0, 0] = 0 from by decide)
    (show (2 : Nat) ≤ 10000 from by decide)
    (show (8 : Nat) = 1 ∨ (8 : Nat) = 4 ∨ (8 : Nat) = 8 ∨ (8 : Nat) = 24 from by decide)
    (show ([10, 20, 30, 0, 40, 50, 60, 0] : List Nat).length = palCount 8 2 * 4
      from by decide)
    (show getDWORD [62, 0, 0, 0] =
      54 + ([10, 20, 30, 0, 40, 50, 60, 0] : List Nat).length + ([] : List Nat).length
      from by decide)
    (show ([[0, 1, 0, 0], [1, 1, 0, 0]] : List (List Nat)).length = (2 : Int).toNat
      from by decide)
    (show ∀ r ∈ ([[0, 1, 0, 0], [1, 1, 0, 0]] : List (List Nat)),
      r.length = (((2 : Int).toNat * 8 + 31) / 32) * 4 from by decide)

end GoBmp
